import Mathlib

/-!
Verification of the versioned configuration store and the dynamic tool
synthesis engine of the ai-proxy repository, as a shallow embedding.

The embedding follows src/src/langchain_proxy/server/config.py (the
PostgreSQL-backed store) and src/src/langchain_proxy/core/graph.py (the tool
synthesizer).  The database is modelled as the in-memory lists it stores
(models, version rows in insertion order, the active-model list ordered by
priority); an operation that raises before its commit leaves that state
unchanged, which the embedding renders as functions into Except.  The Python
parser and interpreter are external collaborators: they enter as explicit
oracle arguments (a parse outcome, an execution outcome), never as modelled
code.  All other logic - validation, semver comparison, ILIKE name lookup,
the deny-list screen, parameter inference - is translated directly from the
source.
-/

namespace AIProxy

/-- The JSON-ish values that travel through model_params / defaults.  Only
their keys are ever inspected by the store, so a small value universe
suffices. -/
inductive JsonVal where
  | s (v : String)
  | n (v : Int)
  | b (v : Bool)
  | null
deriving DecidableEq, Repr

/-- Errors raised by the stores.  valueError and keyError are Python
ValueError / KeyError with their message; multipleResultsFound is SQLAlchemy
MultipleResultsFound raised by scalar_one_or_none when a query returns more
than one row; dataError is the wrapped PostgreSQL error a malformed LIKE
pattern raises at query time. -/
inductive Err where
  | valueError (msg : String)
  | keyError (msg : String)
  | multipleResultsFound
  | dataError (msg : String)
deriving DecidableEq, Repr

instance instDecEqExcept {ε α : Type} [DecidableEq ε] [DecidableEq α] :
    DecidableEq (Except ε α)
  | .ok a, .ok b =>
    if h : a = b then .isTrue (by rw [h]) else .isFalse (by intro hc; cases hc; exact h rfl)
  | .error a, .error b =>
    if h : a = b then .isTrue (by rw [h]) else .isFalse (by intro hc; cases hc; exact h rfl)
  | .ok _, .error _ => .isFalse (by intro hc; cases hc)
  | .error _, .ok _ => .isFalse (by intro hc; cases hc)

/-! ### Character and string helpers (Python str semantics on ASCII) -/

/-- Split a character list at every occurrence of the separator, like
Python str.split(sep) for a one-character separator: n separators give
n+1 groups, adjacent separators give empty groups. -/
def splitOnDot : List Char → List Char → List (List Char)
  | [], acc => [acc.reverse]
  | c :: cs, acc => if c = '.' then acc.reverse :: splitOnDot cs [] else splitOnDot cs (c :: acc)

/-- Numeric value of a digit string (the happy path of Python int()). -/
def digitsVal (cs : List Char) : Nat :=
  cs.foldl (fun acc c => acc * 10 + (c.toNat - '0'.toNat)) 0

/-- Python int(s) on the strings produced by splitting a version: succeeds
exactly on non-empty all-digit strings, raising ValueError otherwise. -/
def pyInt (cs : List Char) : Except Err Nat :=
  if cs ≠ [] ∧ cs.all Char.isDigit then .ok (digitsVal cs)
  else .error (.valueError "invalid literal for int() with base 10")

/-- One component of validate_version / the name pattern: a lowercase ASCII
letter. -/
def isLowerAlpha (c : Char) : Bool :=
  'a' ≤ c ∧ c ≤ 'z'

/-- A character allowed after the first one of a model or tool name:
lowercase letter, digit, underscore or hyphen. -/
def isNameChar (c : Char) : Bool :=
  isLowerAlpha c ∨ ('0' ≤ c ∧ c ≤ '9') ∨ c = '_' ∨ c = '-'

/-- The body of the name regex, anchored at both ends:
one lowercase letter then any number of name characters. -/
def namePatternCore (cs : List Char) : Bool :=
  match cs with
  | [] => false
  | c :: rest => isLowerAlpha c && rest.all isNameChar

/-- Python re.match against r-caret-[a-z][a-z0-9_-]*-dollar: the dollar
anchor also matches just before one trailing newline, so a name that ends in
a single newline after an otherwise matching body passes. -/
def reMatchNamePattern (s : String) : Bool :=
  let cs := s.toList
  namePatternCore cs ||
    (match cs.getLast? with
     | some c => c = '\n' && namePatternCore cs.dropLast
     | none => false)

/-- ASCII lowercase of a string, Python str.lower() on the names involved. -/
def lowerStr (s : String) : String :=
  String.mk (s.toList.map Char.toLower)

/-- Python str.strip(): remove leading and trailing whitespace. -/
def pyStrip (s : String) : String :=
  String.mk (((s.toList.dropWhile Char.isWhitespace).reverse.dropWhile Char.isWhitespace).reverse)

/-- Substring test on character lists: Python (sub in hay). -/
def containsSub (hay sub : List Char) : Bool :=
  match hay with
  | [] => sub.isEmpty
  | _ :: rest => sub.isPrefixOf hay || containsSub rest sub

/-- Whether a predicate holds on some suffix of the list (the list itself
included). -/
def anyTail (g : List Char → Bool) : List Char → Bool
  | [] => g []
  | t :: ts => g (t :: ts) || anyTail g ts

/-- SQL LIKE / ILIKE pattern match as PostgreSQL evaluates
CustomModelDB.name.ilike(input) - no ESCAPE clause is emitted, so the
default escape character backslash applies: the pattern is the first
argument, an underscore matches any single character, a percent sign any
sequence (each percent sign may consume any suffix), a backslash makes the
following pattern character literal (still compared case-insensitively
under ILIKE), and every other character compares lowercased.  A pattern
ending in a bare backslash is a database error, checked separately by
likePatternOk; on such a pattern this function is never consulted. -/
def likeMatch : List Char → List Char → Bool
  | [], ts => ts.isEmpty
  | p :: ps, ts =>
    if p = '\\' then
      match ps with
      | [] => false
      | q :: ps2 =>
        match ts with
        | [] => false
        | t :: ts2 => (q.toLower = t.toLower) && likeMatch ps2 ts2
    else if p = '%' then anyTail (likeMatch ps) ts
    else
      match ts with
      | [] => false
      | t :: ts2 => (p = '_' || p.toLower = t.toLower) && likeMatch ps ts2

/-- Well-formedness of a LIKE pattern under the default backslash escape:
PostgreSQL raises (LIKE pattern must not end with escape character) when the
pattern ends in a bare backslash. -/
def likePatternOk : List Char → Bool
  | [] => true
  | p :: ps =>
    if p = '\\' then
      match ps with
      | [] => false
      | _ :: ps2 => likePatternOk ps2
    else likePatternOk ps

/-! ### Validation helpers (config.py lines 54-126) -/

/-- validate_model_name: strip and lowercase, then enforce the 2..64 length
rule and the name pattern.  Returns the canonical stored name. -/
def validate_model_name (name : String) : Except Err String :=
  if name = "" then .error (.valueError "Model name is required.")
  else
    let canon := lowerStr (pyStrip name)
    if canon.length < 2 then .error (.valueError "Model name must be at least 2 characters.")
    else if canon.length > 64 then .error (.valueError "Model name must be at most 64 characters.")
    else if namePatternCore canon.toList then .ok canon
    else .error (.valueError "Model name must start with a letter and contain only lowercase letters, numbers, underscores, and hyphens.")

/-- The semver shape r-caret-digits.digits.digits-dollar of VERSION_PATTERN. -/
def versionPattern (s : String) : Bool :=
  match splitOnDot s.toList [] with
  | [a, b, c] => a ≠ [] && a.all Char.isDigit && b ≠ [] && b.all Char.isDigit && c ≠ [] && c.all Char.isDigit
  | _ => false

/-- validate_version: strip, then require the MAJOR.MINOR.PATCH digit shape. -/
def validate_version (version : String) : Except Err String :=
  if version = "" then .error (.valueError "Version is required.")
  else
    let v := pyStrip version
    if versionPattern v then .ok v
    else .error (.valueError "Version must follow semantic versioning format.")

/-- Componentwise comparison of the integer lists produced by the two splits;
zip truncates to the shorter list and equality so far yields 0, exactly as in
the source loop. -/
def cmpParts : List Nat → List Nat → Int
  | a :: as2, b :: bs2 => if a < b then -1 else if b < a then 1 else cmpParts as2 bs2
  | _, _ => 0

/-- compare_versions: split both versions on dots, convert every component
with int() (which raises on a non-digit component), then compare MAJOR,
MINOR, PATCH numerically.  Returns -1, 0 or 1. -/
def compare_versions (v1 v2 : String) : Except Err Int := do
  let p1 ← (splitOnDot v1.toList []).mapM pyInt
  let p2 ← (splitOnDot v2.toList []).mapM pyInt
  return cmpParts p1 p2

/-- parse_model_identifier: split at the first at-sign into a name and an
optional version suffix. -/
def breakAtSign : List Char → List Char × Option (List Char)
  | [] => ([], none)
  | c :: cs =>
    if c = '@' then ([], some cs)
    else
      let r := breakAtSign cs
      (c :: r.1, r.2)

/-- parse_model_identifier on strings: name-at-version gives (name, some
version), a bare name gives (name, none). -/
def parse_model_identifier (identifier : String) : String × Option String :=
  let r := breakAtSign identifier.toList
  (String.mk r.1, r.2.map String.mk)

/-! ### Data model (config.py classes RagSettings, ModelVersionConfig, CustomModel) -/

/-- RAG-specific settings that can vary per model. -/
structure RagSettings where
  enabled : Bool
  top_k : Nat
  collection : String
deriving DecidableEq, Repr

/-- The RagSettings() defaults; the collection default reads the environment
with fallback "knowledge_base", modelled by the fallback. -/
def defaultRagSettings : RagSettings :=
  { enabled := true, top_k := 3, collection := "knowledge_base" }

/-- Configuration for a specific version of a model. -/
structure ModelVersionConfig where
  version : String
  enabled : Bool
  rag_settings : RagSettings
  tool_names : List String
  base_model : Option String
  model_params : List (String × JsonVal)
  created_at : Option String
  description : Option String
deriving DecidableEq, Repr

/-- A custom model row together with its version rows (ModelVersionDB rows
for its id, in insertion order) and its active_versions JSON list. -/
structure CustomModel where
  id : String
  name : String
  version : String
  enabled : Bool
  rag_settings : RagSettings
  tool_names : List String
  base_model : Option String
  model_params : List (String × JsonVal)
  created_at : Option String
  updated_at : Option String
  version_history : List (String × ModelVersionConfig)
  active_versions : List String
deriving DecidableEq, Repr

/-- The database state the ConfigStore operates on: the custom_models table
(with each model carrying its version rows) in insertion order, and the
active_models table as the list of model ids ordered by priority. -/
structure StoreState where
  models : List CustomModel
  activeModels : List String
deriving DecidableEq, Repr

/-- Whitelist of allowed model_params keys for safety. -/
def ALLOWED_MODEL_PARAMS : List String :=
  ["temperature", "max_tokens", "top_p", "stop", "presence_penalty", "frequency_penalty"]

/-- The dict comprehension keeping only whitelisted model_params keys. -/
def filterParams (ps : List (String × JsonVal)) : List (String × JsonVal) :=
  ps.filter (fun kv => ALLOWED_MODEL_PARAMS.contains kv.1)

/-- The list comprehension keeping only tool names present in
AVAILABLE_TOOL_NAMES (passed in as avail). -/
def filterTools (tools avail : List String) : List String :=
  tools.filter (fun t => avail.contains t)

/-- Python (x or default) for optional strings: None and the empty string
both fall back. -/
def pyOrStr (o : Option String) (dflt : String) : String :=
  match o with
  | some s => if s = "" then dflt else s
  | none => dflt

/-- Raise e unless the condition holds. -/
def ensure (p : Prop) [Decidable p] (e : Err) : Except Err Unit :=
  if p then .ok () else .error e

/-! ### ConfigStore reads (config.py lines 311-376) -/

/-- get_model: select by primary key. -/
def get_model (st : StoreState) (model_id : String) : Option CustomModel :=
  st.models.find? (fun m => m.id == model_id)

/-- The rows matched by the unescaped ILIKE query of get_model_by_name. -/
def ilikeMatches (st : StoreState) (name : String) : List CustomModel :=
  st.models.filter (fun m => likeMatch name.toList m.name.toList)

/-- get_model_by_name: where(name.ilike(input)) then scalar_one_or_none,
which yields the row, None, or raises MultipleResultsFound.  A pattern
ending in a bare backslash makes the query itself raise (PostgreSQL: LIKE
pattern must not end with escape character), before any row is considered. -/
def get_model_by_name (st : StoreState) (name : String) : Except Err (Option CustomModel) :=
  if likePatternOk name.toList then
    match ilikeMatches st name with
    | [] => .ok none
    | [m] => .ok (some m)
    | _ => .error .multipleResultsFound
  else .error (.dataError "LIKE pattern must not end with escape character")

/-- The version view synthesized from a model's current fields when the
requested version equals model.version but is absent from history. -/
def synthVersionView (model : CustomModel) : ModelVersionConfig :=
  { version := model.version, enabled := model.enabled,
    rag_settings := model.rag_settings, tool_names := model.tool_names,
    base_model := model.base_model, model_params := model.model_params,
    created_at := model.created_at, description := none }

/-- get_model_by_name_and_version: look the model up by name, then its
version in version_history, falling back to the synthesized view when the
version equals the current one. -/
def get_model_by_name_and_version (st : StoreState) (name version : String) :
    Except Err (Option (CustomModel × ModelVersionConfig)) := do
  let m? ← get_model_by_name st name
  match m? with
  | none => .ok none
  | some model =>
    match model.version_history.lookup version with
    | some cfg => .ok (some (model, cfg))
    | none =>
      if version = model.version then .ok (some (model, synthVersionView model))
      else .ok none

/-- The body of resolve_model_identifier once the identifier is parsed into
its name part and optional version suffix. -/
def resolveParsed (st : StoreState) (name : String) (version : Option String) :
    Except Err (Option (CustomModel × Option ModelVersionConfig)) := do
  let byName ← get_model_by_name st name
  let model? := match byName with
    | some m => some m
    | none => get_model st name
  match model? with
  | none => .ok none
  | some model =>
    match version with
    | some v =>
      if v = "" then .ok (some (model, none))
      else do
        let r ← get_model_by_name_and_version st model.name v
        match r with
        | some (m, cfg) => .ok (some (m, some cfg))
        | none => .ok none
    | none => .ok (some (model, none))

/-- resolve_model_identifier: parse an optional @version suffix, try the name
(ILIKE), then the id with the suffix stripped; an empty or missing version
suffix resolves to the model with no version config; an unknown identifier
resolves to none. -/
def resolve_model_identifier (st : StoreState) (identifier : String) :
    Except Err (Option (CustomModel × Option ModelVersionConfig)) :=
  let pr := parse_model_identifier identifier
  resolveParsed st pr.1 pr.2

/-! ### ConfigStore mutations (config.py lines 411-798) -/

/-- The shared get_model-or-KeyError prologue of every mutating operation. -/
def getModelE (st : StoreState) (model_id : String) : Except Err CustomModel :=
  match get_model st model_id with
  | some m => .ok m
  | none => .error (.keyError ("Model " ++ model_id ++ " does not exist."))

/-- create_model: validate name and version, reject duplicate names (via the
same ILIKE lookup), filter the tool list against the available names, filter
model_params against the whitelist, then insert the model row and its initial
version row with active_versions = [version].  newId stands for the generated
uuid hex id; its primary-key uniqueness is the database constraint. -/
def create_model (st : StoreState) (newId name : String) (enabled : Bool)
    (rag_settings : Option RagSettings) (tool_names : Option (List String))
    (base_model : Option String) (model_params : Option (List (String × JsonVal)))
    (version : String) (description : Option String)
    (avail : List String) (now : String) : Except Err StoreState := do
  let validated_name ← validate_model_name name
  let validated_version ← validate_version version
  let existing ← get_model_by_name st validated_name
  ensure existing.isNone (.valueError ("A model with name " ++ validated_name ++ " already exists."))
  let tool_list := tool_names.getD avail
  let validated_tools := filterTools tool_list avail
  ensure (validated_tools ≠ []) (.valueError "At least one valid tool name is required.")
  let settings := rag_settings.getD defaultRagSettings
  let safe_params := match model_params with
    | some ps => filterParams ps
    | none => []
  ensure (st.models.all (fun m => m.id != newId)) (.valueError "duplicate key value violates unique constraint custom_models_pkey")
  let cfg : ModelVersionConfig :=
    { version := validated_version, enabled := enabled, rag_settings := settings,
      tool_names := validated_tools, base_model := base_model,
      model_params := safe_params, created_at := some now,
      description := some (pyOrStr description "Initial version") }
  let m : CustomModel :=
    { id := newId, name := validated_name, version := validated_version,
      enabled := enabled, rag_settings := settings, tool_names := validated_tools,
      base_model := base_model, model_params := safe_params,
      created_at := some now, updated_at := some now,
      version_history := [(validated_version, cfg)],
      active_versions := [validated_version] }
  .ok { st with models := st.models ++ [m] }

/-- create_model_version: KeyError on an unknown model, ValidationError on a
duplicate or non-increasing version, inherit unspecified fields from the
current configuration, then append the version row and point the model at the
new version (auto-appending it to active_versions). -/
def create_model_version (st : StoreState) (model_id version : String) (enabled : Bool)
    (rag_settings : Option RagSettings) (tool_names : Option (List String))
    (base_model : Option String) (model_params : Option (List (String × JsonVal)))
    (description : Option String) (avail : List String) (now : String) :
    Except Err StoreState := do
  let model ← getModelE st model_id
  let validated_version ← validate_version version
  ensure (model.version_history.lookup validated_version).isNone
    (.valueError ("Version " ++ validated_version ++ " already exists for model " ++ model.name ++ "."))
  let cmp ← compare_versions validated_version model.version
  ensure (0 < cmp)
    (.valueError ("New version " ++ validated_version ++ " must be greater than current version " ++ model.version ++ "."))
  let tool_list := tool_names.getD model.tool_names
  let validated_tools := filterTools tool_list avail
  ensure (validated_tools ≠ []) (.valueError "At least one valid tool name is required.")
  let settings := rag_settings.getD model.rag_settings
  let base := match base_model with
    | some b => some b
    | none => model.base_model
  let safe_params := match model_params with
    | some ps => filterParams ps
    | none => model.model_params
  let cfg : ModelVersionConfig :=
    { version := validated_version, enabled := enabled, rag_settings := settings,
      tool_names := validated_tools, base_model := base, model_params := safe_params,
      created_at := some now, description := description }
  .ok { st with models := st.models.map (fun m =>
    if m.id == model_id then
      { m with
        version := validated_version, enabled := enabled,
        rag_settings := settings, tool_names := validated_tools,
        base_model := base, model_params := safe_params, updated_at := some now,
        version_history := m.version_history ++ [(validated_version, cfg)],
        active_versions :=
          if m.active_versions.contains validated_version then m.active_versions
          else m.active_versions ++ [validated_version] }
    else m) }

/-- activate_model_version: KeyError on unknown model or version; append the
version to active_versions when absent and set the version row enabled. -/
def activate_model_version (st : StoreState) (model_id version now : String) :
    Except Err StoreState := do
  let model ← getModelE st model_id
  let validated_version ← validate_version version
  ensure (model.version_history.lookup validated_version).isSome
    (.keyError ("Version " ++ validated_version ++ " not found for model " ++ model.name ++ "."))
  .ok { st with models := st.models.map (fun m =>
    if m.id == model_id then
      { m with
        active_versions :=
          if m.active_versions.contains validated_version then m.active_versions
          else m.active_versions ++ [validated_version],
        updated_at :=
          if m.active_versions.contains validated_version then m.updated_at
          else some now,
        version_history := m.version_history.map (fun p =>
          if p.1 == validated_version then (p.1, { p.2 with enabled := true }) else p) }
    else m) }

/-- deactivate_model_version: KeyError on unknown model or version;
ValidationError when the version is the only active one; otherwise remove it
from active_versions and set the version row disabled. -/
def deactivate_model_version (st : StoreState) (model_id version now : String) :
    Except Err StoreState := do
  let model ← getModelE st model_id
  let validated_version ← validate_version version
  ensure (model.version_history.lookup validated_version).isSome
    (.keyError ("Version " ++ validated_version ++ " not found for model " ++ model.name ++ "."))
  ensure (¬ (model.active_versions.length = 1 ∧ model.active_versions.contains validated_version))
    (.valueError "Cannot deactivate the only active version. Activate another version first.")
  .ok { st with models := st.models.map (fun m =>
    if m.id == model_id then
      { m with
        active_versions :=
          if m.active_versions.contains validated_version then m.active_versions.erase validated_version
          else m.active_versions,
        updated_at :=
          if m.active_versions.contains validated_version then some now
          else m.updated_at,
        version_history := m.version_history.map (fun p =>
          if p.1 == validated_version then (p.1, { p.2 with enabled := false }) else p) }
    else m) }

/-- activate_model: delete any existing active row for the model and insert
one with priority one less than the minimum, placing it first. -/
def activate_model (st : StoreState) (model_id : String) : Except Err StoreState := do
  let _model ← getModelE st model_id
  .ok { st with activeModels := model_id :: st.activeModels.erase model_id }

/-- remove_active_model: ValidationError if the model is not active or is the
sole active entry. -/
def remove_active_model (st : StoreState) (model_id : String) : Except Err StoreState := do
  let _model ← getModelE st model_id
  ensure (st.activeModels.contains model_id)
    (.valueError ("Model " ++ model_id ++ " is not active."))
  ensure (st.activeModels.length ≠ 1)
    (.valueError "At least one active model must remain.")
  .ok { st with activeModels := st.activeModels.erase model_id }

/-- The base_model branch of update_model: when provided, the empty string
clears the field (Python truthiness), anything else is stored. -/
def updBaseField (cur : Option String) : Option String → Option String
  | none => cur
  | some b => if b = "" then none else some b

/-- The model_params branch of update_model: when provided, filtered against
the whitelist. -/
def updParamsField (cur : List (String × JsonVal)) :
    Option (List (String × JsonVal)) → List (String × JsonVal)
  | none => cur
  | some ps => filterParams ps

/-- The name branch of update_model: validate the new name, then run the
duplicate check excluding the model itself (ILIKE, scalar_one_or_none). -/
def updNameField (st : StoreState) (model_id : String) : Option String → Except Err (Option String)
  | none => .ok none
  | some n => do
    let vn ← validate_model_name n
    if likePatternOk vn.toList then
      match st.models.filter (fun m => likeMatch vn.toList m.name.toList && m.id != model_id) with
      | [] => .ok (some vn)
      | [_] => .error (.valueError ("A model with name " ++ vn ++ " already exists."))
      | _ => .error .multipleResultsFound
    else .error (.dataError "LIKE pattern must not end with escape character")

/-- The version branch of update_model: validate when provided. -/
def updVersionField : Option String → Except Err (Option String)
  | none => .ok none
  | some v => (validate_version v).map some

/-- The tool_names branch of update_model: filter against the available
names, rejecting an empty result. -/
def updToolsField (avail : List String) : Option (List String) → Except Err (Option (List String))
  | none => .ok none
  | some ts =>
    let vt := filterTools ts avail
    if vt = [] then .error (.valueError "At least one valid tool name is required.")
    else .ok (some vt)

/-- update_model: only provided fields are updated; name is validated with a
duplicate check excluding the model itself, version is validated (and simply
overwrites the current version field), tool_names are filtered with an
emptiness check, base_model treats the empty string as clearing, and
model_params are filtered against the whitelist. -/
def update_model (st : StoreState) (model_id : String) (name : Option String)
    (enabled : Option Bool) (rag_settings : Option RagSettings)
    (tool_names : Option (List String)) (base_model : Option String)
    (model_params : Option (List (String × JsonVal))) (version : Option String)
    (avail : List String) (now : String) : Except Err StoreState := do
  let _model ← getModelE st model_id
  let nameUpd ← updNameField st model_id name
  let versionUpd ← updVersionField version
  let toolsUpd ← updToolsField avail tool_names
  .ok { st with models := st.models.map (fun m =>
    if m.id == model_id then
      { m with
        name := nameUpd.getD m.name,
        version := versionUpd.getD m.version,
        enabled := enabled.getD m.enabled,
        rag_settings := rag_settings.getD m.rag_settings,
        tool_names := toolsUpd.getD m.tool_names,
        base_model := updBaseField m.base_model base_model,
        model_params := updParamsField m.model_params model_params,
        updated_at := some now }
    else m) }

/-- delete_model: refuse to delete the sole active model; otherwise remove
the active entry (if any) and the model row (versions cascade). -/
def delete_model (st : StoreState) (model_id : String) : Except Err StoreState := do
  let _model ← getModelE st model_id
  if st.activeModels.contains model_id then do
    ensure (st.activeModels.length ≠ 1)
      (.valueError "Cannot delete the only active model. Activate another model first.")
    .ok { models := st.models.filter (fun m => m.id != model_id),
          activeModels := st.activeModels.erase model_id }
  else
    .ok { st with models := st.models.filter (fun m => m.id != model_id) }

/-! ### Operation sequences over the store -/

/-- One admin call against the ConfigStore, carrying the values the Python
code obtains from its environment (the generated uuid id, the current
AVAILABLE_TOOL_NAMES snapshot, the utcnow timestamp). -/
inductive Op where
  | createModel (newId name : String) (enabled : Bool) (rag : Option RagSettings)
      (tools : Option (List String)) (base : Option String)
      (params : Option (List (String × JsonVal))) (version : String)
      (descr : Option String) (avail : List String) (now : String)
  | createVersion (modelId version : String) (enabled : Bool) (rag : Option RagSettings)
      (tools : Option (List String)) (base : Option String)
      (params : Option (List (String × JsonVal))) (descr : Option String)
      (avail : List String) (now : String)
  | updateModel (modelId : String) (name : Option String) (enabled : Option Bool)
      (rag : Option RagSettings) (tools : Option (List String)) (base : Option String)
      (params : Option (List (String × JsonVal))) (version : Option String)
      (avail : List String) (now : String)
  | activateVersion (modelId version now : String)
  | deactivateVersion (modelId version now : String)
  | activateModel (modelId : String)
  | removeActiveModel (modelId : String)
  | deleteModel (modelId : String)
deriving DecidableEq, Repr

/-- Dispatch one call. -/
def applyOp (st : StoreState) : Op → Except Err StoreState
  | .createModel newId name enabled rag tools base params version descr avail now =>
    create_model st newId name enabled rag tools base params version descr avail now
  | .createVersion modelId version enabled rag tools base params descr avail now =>
    create_model_version st modelId version enabled rag tools base params descr avail now
  | .updateModel modelId name enabled rag tools base params version avail now =>
    update_model st modelId name enabled rag tools base params version avail now
  | .activateVersion modelId version now => activate_model_version st modelId version now
  | .deactivateVersion modelId version now => deactivate_model_version st modelId version now
  | .activateModel modelId => activate_model st modelId
  | .removeActiveModel modelId => remove_active_model st modelId
  | .deleteModel modelId => delete_model st modelId

/-- The state one call leaves behind: its result on success, the old state
when it raises (the transaction is never committed). -/
def stepOp (st : StoreState) (op : Op) : StoreState :=
  match applyOp st op with
  | .ok st2 => st2
  | .error _ => st

def run (st : StoreState) : List Op → StoreState
  | [] => st
  | op :: ops => run (stepOp st op) ops

/-! ### ToolStore (config.py lines 820-1151) -/

/-- Definition of a tool parameter (class ToolParameter): name, one of the
schema type strings, a description, the required flag and an optional
default. -/
structure ToolParameterRec where
  name : String
  type : String
  description : String
  required : Bool
  default : Option JsonVal
deriving DecidableEq, Repr

/-- A tool row (class Tool / ToolDB).  The config JSON is only ever consulted
for its is_builtin flag, kept here directly. -/
structure ToolRec where
  id : String
  name : String
  description : String
  category : Option String
  enabled : Bool
  is_builtin : Bool
  function_code : Option String
  parameters : Option (List ToolParameterRec)
  created_at : Option String
  updated_at : Option String
deriving DecidableEq, Repr

/-- The tools table in insertion order. -/
structure ToolState where
  tools : List ToolRec
deriving DecidableEq, Repr

/-- The rows matched by get_tool's (id == key or name == key) filter. -/
def toolKeyMatches (st : ToolState) (key : String) : List ToolRec :=
  st.tools.filter (fun t => t.id == key || t.name == key)

/-- get_tool: select where id or name equals the key, scalar_one_or_none. -/
def get_tool (st : ToolState) (key : String) : Except Err (Option ToolRec) :=
  match toolKeyMatches st key with
  | [] => .ok none
  | [t] => .ok (some t)
  | _ => .error .multipleResultsFound

/-- list_tools: all rows ordered by name. -/
def list_tools (st : ToolState) : List ToolRec :=
  st.tools.mergeSort (fun a b => a.name ≤ b.name)

/-- The fixed deny-list of _validate_function_code, in source order. -/
def dangerous_patterns : List String :=
  ["import os", "from os", "import sys", "from sys",
   "import subprocess", "from subprocess",
   "__import__", "exec(", "eval(",
   "open(", "file(",
   "import shutil", "from shutil",
   "import socket", "from socket"]

/-- The first deny-listed pattern found in the lowercased code, if any
(the source loop raises on the first hit, walking the list in order). -/
def findDangerousPattern (code : String) : Option String :=
  let code_lower := lowerStr code
  dangerous_patterns.find? (fun p => containsSub code_lower.toList (lowerStr p).toList)

/-- The message of the deny-list rejection (the SecurityError of the spec),
naming the matched pattern. -/
def securityRejectionText (p : String) : String :=
  "Function code contains potentially dangerous operation: " ++ p ++ ". For security, system-level operations are not allowed."

/-- The message of the syntax rejection (the ValidationError of the spec),
carrying the parser message. -/
def syntaxRejectionText (msg : String) : String :=
  "Invalid Python syntax in function code: " ++ msg

/-- _validate_function_code.  The Python parser (the compile builtin) is an
external collaborator and enters as the oracle pyParseErr: none when the code
parses, or some message when it raises SyntaxError.  Checks run in source
order: empty code, then syntax, then the deny-list; each failure is a
ValueError whose message identifies the check. -/
def validate_function_code (pyParseErr : String → Option String) (code : String) :
    Except Err Unit := do
  ensure (¬ (code = "" ∨ pyStrip code = "")) (.valueError "Function code cannot be empty.")
  match pyParseErr code with
  | some msg => .error (.valueError (syntaxRejectionText msg))
  | none =>
    match findDangerousPattern code with
    | some p => .error (.valueError (securityRejectionText p))
    | none => .ok ()

/-- The (if function_code: validate) guard of create_tool: Python truthiness
skips validation for None and for the empty string. -/
def validateCodeField (pyParseErr : String → Option String) :
    Option String → Except Err Unit
  | some fc => if fc ≠ "" then validate_function_code pyParseErr fc else .ok ()
  | none => .ok ()

/-- create_tool: name pattern check (re.match, no length rule), duplicate
check via get_tool, then the safety screen when function_code is a non-empty
string, then the insert.  newId is the generated uuid hex id with its
primary-key constraint. -/
def create_tool (pyParseErr : String → Option String) (st : ToolState)
    (newId name description : String) (category : Option String) (enabled : Bool)
    (is_builtin : Bool) (function_code : Option String)
    (parameters : Option (List ToolParameterRec)) (now : String) :
    Except Err ToolState := do
  ensure (name ≠ "" ∧ reMatchNamePattern name)
    (.valueError "Tool name must start with a letter and contain only lowercase letters, numbers, underscores, and hyphens.")
  let existing ← get_tool st name
  ensure existing.isNone (.valueError ("Tool " ++ name ++ " already exists."))
  validateCodeField pyParseErr function_code
  ensure (st.tools.all (fun t => t.id != newId))
    (.valueError "duplicate key value violates unique constraint tools_pkey")
  let t : ToolRec :=
    { id := newId, name := name, description := description,
      category := category, enabled := enabled, is_builtin := is_builtin,
      function_code := function_code, parameters := parameters,
      created_at := some now, updated_at := some now }
  .ok { tools := st.tools ++ [t] }

/-- The state a failed create_tool call leaves behind: the raised error never
commits, so callers observe the old state. -/
def create_tool_step (pyParseErr : String → Option String) (st : ToolState)
    (newId name description : String) (category : Option String) (enabled : Bool)
    (is_builtin : Bool) (function_code : Option String)
    (parameters : Option (List ToolParameterRec)) (now : String) : ToolState :=
  match create_tool pyParseErr st newId name description category enabled is_builtin
      function_code parameters now with
  | .ok st2 => st2
  | .error _ => st

/-! ### Tool synthesizer (core/graph.py lines 272-421) -/

/-- A function argument's type hint as _create_dynamic_tool inspects it: no
hint, an ast.Name hint with its identifier, or any other annotation node
(which the isinstance check skips). -/
inductive PyAnn where
  | noAnn
  | nameAnn (id : String)
  | otherAnn
deriving DecidableEq, Repr

/-- One argument of a Python function definition (ast.arg). -/
structure PyArg where
  arg : String
  hint : PyAnn
deriving DecidableEq, Repr

/-- A node yielded by ast.walk over the parsed source, in walk order: a
function definition with its positional arguments, or any other node. -/
inductive PyAstNode where
  | functionDef (args : List PyArg)
  | otherNode
deriving DecidableEq, Repr

/-- The type-hint-to-schema-type mapping of the inference loop; every
unrecognized or missing hint keeps the "string" default. -/
def inferParamType (a : PyAnn) : String :=
  match a with
  | .nameAnn id =>
    let t := lowerStr id
    if t = "str" ∨ t = "string" then "string"
    else if t = "int" ∨ t = "integer" then "integer"
    else if t = "float" ∨ t = "number" then "number"
    else if t = "bool" ∨ t = "boolean" then "boolean"
    else if t = "list" ∨ t = "array" then "array"
    else if t = "dict" ∨ t = "object" then "object"
    else "string"
  | _ => "string"

/-- The first FunctionDef met while walking the parsed source (the loop
breaks after the first one). -/
def firstFunctionDef : List PyAstNode → Option (List PyArg)
  | [] => none
  | .functionDef args :: _ => some args
  | .otherNode :: rest => firstFunctionDef rest

/-- The InferredParam records built for one function's arguments: typed by
the hint mapping, described as "Parameter: name", required, no default. -/
def inferredParams (args : List PyArg) : List ToolParameterRec :=
  args.map (fun a =>
    { name := a.arg, type := inferParamType a.hint,
      description := "Parameter: " ++ a.arg, required := true, default := none })

/-- The parameter list _create_dynamic_tool ends up with: the explicit
parameters when any are declared; otherwise the list inferred from the first
function definition of the parsed source (empty when parsing fails - the
except branch only logs - or when no function definition is found).  The
parse outcome of ast.parse is the external oracle. -/
def deriveParameters (explicit : List ToolParameterRec)
    (parsed : Except String (List PyAstNode)) : List ToolParameterRec :=
  if explicit.isEmpty then
    match parsed with
    | .error _ => []
    | .ok walk =>
      match firstFunctionDef walk with
      | some args => inferredParams args
      | none => []
  else explicit

/-- The Python host types the schema maps the type strings onto. -/
inductive PyType where
  | str
  | float
  | int
  | bool
  | list
  | dict
deriving DecidableEq, Repr

/-- type_mapping with its .get default of str. -/
def type_mapping (t : String) : PyType :=
  if t = "string" then .str
  else if t = "number" then .float
  else if t = "integer" then .int
  else if t = "boolean" then .bool
  else if t = "array" then .list
  else if t = "object" then .dict
  else .str

/-- One entry of field_definitions: the mapped host type, whether it was
wrapped in Optional, and the default carried by the Field (required
parameters get none). -/
structure FieldDef where
  ftype : PyType
  optional : Bool
  default : Option JsonVal
deriving DecidableEq, Repr

/-- The field_definitions dict built from the parameter list: required
parameters map to (type, no default), optional ones to (Optional type,
their declared default). -/
def buildFieldDefinitions (params : List ToolParameterRec) : List (String × FieldDef) :=
  params.map (fun p =>
    (p.name,
     if p.required then { ftype := type_mapping p.type, optional := false, default := none }
     else { ftype := type_mapping p.type, optional := true, default := p.default }))

/-- An exception raised inside the executor's try block, with the text
traceback.format_exc() would render. -/
structure PyExc where
  msg : String
  traceback : String
deriving DecidableEq, Repr

/-- What one name defined by exec(fn_code, ...) is worth for the executor: a
callable whose invocation with the supplied kwargs either raises or returns
(none for Python None, some s for a value with str() form s), or a
non-callable binding. -/
inductive PyLocal where
  | callable (call : Except PyExc (Option String))
  | notCallable
deriving DecidableEq, Repr

/-- Python callable() on a binding. -/
def isCallableLocal : PyLocal → Bool
  | .callable _ => true
  | .notCallable => false

/-- name in safe_locals and callable(safe_locals[name]). -/
def lookupCallable (locals : List (String × PyLocal)) (n : String) :
    Option (Except PyExc (Option String)) :=
  match locals.lookup n with
  | some (.callable c) => some c
  | _ => none

/-- The first of the candidate names bound to a callable. -/
def findNamed (locals : List (String × PyLocal)) : List String →
    Option (Except PyExc (Option String))
  | [] => none
  | n :: ns =>
    match lookupCallable locals n with
    | some c => some c
    | none => findNamed locals ns

/-- Whether a name starts with an underscore. -/
def startsWithUnderscore (s : String) : Bool :=
  match s.toList with
  | c :: _ => c = '_'
  | [] => false

/-- The fallback scan: the first callable binding whose name has no leading
underscore, in definition order. -/
def findFallback (locals : List (String × PyLocal)) :
    Option (Except PyExc (Option String)) :=
  match locals.find? (fun p => isCallableLocal p.2 && !(startsWithUnderscore p.1)) with
  | some (_, .callable c) => some c
  | _ => none

/-- The function-selection order of execute_custom_tool: the tool's own name,
then main, run, execute, then the fallback scan. -/
def findFunction (t_name : String) (locals : List (String × PyLocal)) :
    Option (Except PyExc (Option String)) :=
  match findNamed locals [t_name, "main", "run", "execute"] with
  | some c => some c
  | none => findFallback locals

/-- The formatted error string the except branch returns. -/
def pyExcText (e : PyExc) : String :=
  "Error executing tool: " ++ e.msg ++ "\n" ++ e.traceback

/-- The message returned when no function can be selected. -/
def noFunctionText (t_name : String) : String :=
  "Error: No executable function found in tool code. Define a function named " ++ t_name ++ ", main, run, or execute."

/-- execute_custom_tool, the closure make_executor builds.  Running
exec(fn_code, safe_globals, safe_locals) and the subsequent invocation are
the Python interpreter's work and enter as the oracle execOutcome: exec
either raises (caught by the surrounding try) or yields the bindings of
safe_locals in definition order, each with its own call outcome.  Every path
returns a string. -/
def execute_custom_tool (t_name : String)
    (execOutcome : Except PyExc (List (String × PyLocal))) : String :=
  match execOutcome with
  | .error e => pyExcText e
  | .ok locals =>
    match findFunction t_name locals with
    | none => noFunctionText t_name
    | some call =>
      match call with
      | .error e => pyExcText e
      | .ok none => "Tool executed successfully."
      | .ok (some s) => s

end AIProxy


namespace AIProxy

/-! ### Inversion helpers for the Except chains -/

theorem except_bind_ok {α β : Type} {a : Except Err α} {f : α → Except Err β} {b : β} :
    a >>= f = .ok b ↔ ∃ x, a = .ok x ∧ f x = .ok b := by
  cases a with
  | error e => simp [Bind.bind, Except.bind]
  | ok x => simp [Bind.bind, Except.bind]

theorem ensure_ok {p : Prop} [Decidable p] {e : Err} {u : Unit} :
    ensure p e = .ok u ↔ p := by
  by_cases hp : p <;> simp [ensure, hp]

theorem ensure_not_ok {p : Prop} [Decidable p] {e : Err} (hp : ¬ p) :
    ensure p e = .error e := by
  simp [ensure, hp]

theorem getModelE_ok {st : StoreState} {model_id : String} {m : CustomModel} :
    getModelE st model_id = .ok m ↔ get_model st model_id = some m := by
  unfold getModelE
  cases h : get_model st model_id <;> simp

/-! ### Store invariants -/

/-- The primary-key constraint of custom_models: ids are pairwise distinct. -/
def storeWF (st : StoreState) : Prop :=
  st.models.Pairwise (fun a b => a.id ≠ b.id)

/-- The C1 invariant: a model with at least one version row keeps at least
one active version. -/
def activeNonEmptyInv (st : StoreState) : Prop :=
  ∀ m ∈ st.models, m.version_history ≠ [] → m.active_versions ≠ []

/-- The C4 invariant: the current version field equals the version of the
most recently created (last inserted) version row. -/
def currentIsLatest (st : StoreState) : Prop :=
  ∀ m ∈ st.models, m.version_history.getLast?.map Prod.fst = some m.version

/-- All keys of a model_params dict lie in the whitelist. -/
def paramsAllowed (ps : List (String × JsonVal)) : Prop :=
  ∀ kv ∈ ps, kv.1 ∈ ALLOWED_MODEL_PARAMS

/-- The C10 invariant: every persisted model and version row has whitelisted
model_params keys only. -/
def modelParamsInv (st : StoreState) : Prop :=
  ∀ m ∈ st.models, paramsAllowed m.model_params ∧
    ∀ p ∈ m.version_history, paramsAllowed p.2.model_params

theorem paramsAllowed_filterParams (ps : List (String × JsonVal)) :
    paramsAllowed (filterParams ps) := by
  intro kv hkv
  have := List.of_mem_filter hkv
  exact List.mem_of_elem_eq_true this

theorem paramsAllowed_nil : paramsAllowed [] := by
  intro kv hkv
  cases hkv

/-! ### Per-operation shape lemmas -/

theorem create_model_ok_elim {st st2 : StoreState} {newId name : String} {en : Bool}
    {rag : Option RagSettings} {tools : Option (List String)} {base : Option String}
    {params : Option (List (String × JsonVal))} {version : String} {descr : Option String}
    {avail : List String} {now : String}
    (h : create_model st newId name en rag tools base params version descr avail now = .ok st2) :
    ∃ mnew vv cfg,
      st2.models = st.models ++ [mnew] ∧
      st2.activeModels = st.activeModels ∧
      mnew.id = newId ∧
      mnew.version_history = [(vv, cfg)] ∧
      mnew.active_versions = [vv] ∧
      mnew.version = vv ∧
      cfg.model_params = mnew.model_params ∧
      (mnew.model_params = [] ∨ ∃ ps, mnew.model_params = filterParams ps) ∧
      (st.models.all (fun m => m.id != newId)) := by
  unfold create_model at h
  obtain ⟨vn, hvn, h⟩ := except_bind_ok.mp h
  obtain ⟨vv, hvv, h⟩ := except_bind_ok.mp h
  obtain ⟨ex, hex, h⟩ := except_bind_ok.mp h
  obtain ⟨u1, hu1, h⟩ := except_bind_ok.mp h
  obtain ⟨u2, hu2, h⟩ := except_bind_ok.mp h
  obtain ⟨u3, hu3, h⟩ := except_bind_ok.mp h
  simp only [Except.ok.injEq] at h
  subst h
  refine ⟨_, vv, _, rfl, rfl, rfl, rfl, rfl, rfl, rfl, ?_, ensure_ok.mp hu3⟩
  cases params with
  | none => exact Or.inl rfl
  | some ps => exact Or.inr ⟨ps, rfl⟩

theorem create_model_version_ok_elim {st st2 : StoreState} {model_id version : String}
    {en : Bool} {rag : Option RagSettings} {tools : Option (List String)}
    {base : Option String} {params : Option (List (String × JsonVal))}
    {descr : Option String} {avail : List String} {now : String}
    (h : create_model_version st model_id version en rag tools base params descr avail now = .ok st2) :
    ∃ m0 vv cfg settings vt base2 sp,
      get_model st model_id = some m0 ∧
      st2.activeModels = st.activeModels ∧
      (sp = m0.model_params ∨ ∃ ps, sp = filterParams ps) ∧
      cfg = { version := vv, enabled := en, rag_settings := settings, tool_names := vt,
              base_model := base2, model_params := sp, created_at := some now,
              description := descr } ∧
      st2.models = st.models.map (fun m =>
        if m.id == model_id then
          { m with
            version := vv, enabled := en,
            rag_settings := settings, tool_names := vt,
            base_model := base2, model_params := sp, updated_at := some now,
            version_history := m.version_history ++ [(vv, cfg)],
            active_versions :=
              if m.active_versions.contains vv then m.active_versions
              else m.active_versions ++ [vv] }
        else m) := by
  unfold create_model_version at h
  obtain ⟨m0, hm0, h⟩ := except_bind_ok.mp h
  obtain ⟨vv, hvv, h⟩ := except_bind_ok.mp h
  obtain ⟨u1, hu1, h⟩ := except_bind_ok.mp h
  obtain ⟨cmp, hcmp, h⟩ := except_bind_ok.mp h
  obtain ⟨u2, hu2, h⟩ := except_bind_ok.mp h
  obtain ⟨u3, hu3, h⟩ := except_bind_ok.mp h
  simp only [Except.ok.injEq] at h
  subst h
  refine ⟨m0, vv, _, _, _, _, _, getModelE_ok.mp hm0, rfl, ?_, rfl, rfl⟩
  cases params with
  | none => exact Or.inl rfl
  | some ps => exact Or.inr ⟨ps, rfl⟩

theorem activate_model_version_ok_elim {st st2 : StoreState}
    {model_id version now : String}
    (h : activate_model_version st model_id version now = .ok st2) :
    ∃ m0 vv,
      get_model st model_id = some m0 ∧
      st2.activeModels = st.activeModels ∧
      st2.models = st.models.map (fun m =>
        if m.id == model_id then
          { m with
            active_versions :=
              if m.active_versions.contains vv then m.active_versions
              else m.active_versions ++ [vv],
            updated_at :=
              if m.active_versions.contains vv then m.updated_at
              else some now,
            version_history := m.version_history.map (fun p =>
              if p.1 == vv then (p.1, { p.2 with enabled := true }) else p) }
        else m) := by
  unfold activate_model_version at h
  obtain ⟨m0, hm0, h⟩ := except_bind_ok.mp h
  obtain ⟨vv, hvv, h⟩ := except_bind_ok.mp h
  obtain ⟨u1, hu1, h⟩ := except_bind_ok.mp h
  simp only [Except.ok.injEq] at h
  subst h
  exact ⟨m0, vv, getModelE_ok.mp hm0, rfl, rfl⟩

theorem deactivate_model_version_ok_elim {st st2 : StoreState}
    {model_id version now : String}
    (h : deactivate_model_version st model_id version now = .ok st2) :
    ∃ m0 vv,
      get_model st model_id = some m0 ∧
      validate_version version = .ok vv ∧
      ¬ (m0.active_versions.length = 1 ∧ m0.active_versions.contains vv) ∧
      st2.activeModels = st.activeModels ∧
      st2.models = st.models.map (fun m =>
        if m.id == model_id then
          { m with
            active_versions :=
              if m.active_versions.contains vv then m.active_versions.erase vv
              else m.active_versions,
            updated_at :=
              if m.active_versions.contains vv then some now
              else m.updated_at,
            version_history := m.version_history.map (fun p =>
              if p.1 == vv then (p.1, { p.2 with enabled := false }) else p) }
        else m) := by
  unfold deactivate_model_version at h
  obtain ⟨m0, hm0, h⟩ := except_bind_ok.mp h
  obtain ⟨vv, hvv, h⟩ := except_bind_ok.mp h
  obtain ⟨u1, hu1, h⟩ := except_bind_ok.mp h
  obtain ⟨u2, hu2, h⟩ := except_bind_ok.mp h
  simp only [Except.ok.injEq] at h
  subst h
  exact ⟨m0, vv, getModelE_ok.mp hm0, hvv, ensure_ok.mp hu2, rfl, rfl⟩

theorem update_model_ok_elim {st st2 : StoreState} {model_id : String}
    {name : Option String} {en : Option Bool} {rag : Option RagSettings}
    {tools : Option (List String)} {base : Option String}
    {params : Option (List (String × JsonVal))} {version : Option String}
    {avail : List String} {now : String}
    (h : update_model st model_id name en rag tools base params version avail now = .ok st2) :
    ∃ (nameUpd versionUpd : Option String) (toolsUpd : Option (List String)),
      st2.activeModels = st.activeModels ∧
      (version = none → versionUpd = none) ∧
      st2.models = st.models.map (fun m =>
        if m.id == model_id then
          { m with
            name := nameUpd.getD m.name,
            version := versionUpd.getD m.version,
            enabled := en.getD m.enabled,
            rag_settings := rag.getD m.rag_settings,
            tool_names := toolsUpd.getD m.tool_names,
            base_model := updBaseField m.base_model base,
            model_params := updParamsField m.model_params params,
            updated_at := some now }
        else m) := by
  unfold update_model at h
  obtain ⟨m0, hm0, h⟩ := except_bind_ok.mp h
  obtain ⟨nameUpd, hname, h⟩ := except_bind_ok.mp h
  obtain ⟨versionUpd, hversion, h⟩ := except_bind_ok.mp h
  obtain ⟨toolsUpd, htools, h⟩ := except_bind_ok.mp h
  simp only [Except.ok.injEq] at h
  subst h
  refine ⟨nameUpd, versionUpd, toolsUpd, rfl, ?_, rfl⟩
  intro hv
  subst hv
  simpa [updVersionField] using hversion.symm

theorem activate_model_ok_elim {st st2 : StoreState} {model_id : String}
    (h : activate_model st model_id = .ok st2) : st2.models = st.models := by
  unfold activate_model at h
  obtain ⟨m0, hm0, h⟩ := except_bind_ok.mp h
  simp only [Except.ok.injEq] at h
  subst h
  rfl

theorem remove_active_model_ok_elim {st st2 : StoreState} {model_id : String}
    (h : remove_active_model st model_id = .ok st2) : st2.models = st.models := by
  unfold remove_active_model at h
  obtain ⟨m0, hm0, h⟩ := except_bind_ok.mp h
  obtain ⟨u1, hu1, h⟩ := except_bind_ok.mp h
  obtain ⟨u2, hu2, h⟩ := except_bind_ok.mp h
  simp only [Except.ok.injEq] at h
  subst h
  rfl

theorem delete_model_ok_elim {st st2 : StoreState} {model_id : String}
    (h : delete_model st model_id = .ok st2) :
    st2.models = st.models.filter (fun m => m.id != model_id) := by
  unfold delete_model at h
  obtain ⟨m0, hm0, h⟩ := except_bind_ok.mp h
  split at h
  · obtain ⟨u1, hu1, h⟩ := except_bind_ok.mp h
    simp only [Except.ok.injEq] at h
    subst h
    rfl
  · simp only [Except.ok.injEq] at h
    subst h
    rfl

/-! ### Preservation of the primary-key constraint -/

theorem storeWF_map {ms : List CustomModel} {f : CustomModel → CustomModel}
    (hf : ∀ m ∈ ms, (f m).id = m.id)
    (h : ms.Pairwise (fun a b => a.id ≠ b.id)) :
    (ms.map f).Pairwise (fun a b => a.id ≠ b.id) := by
  induction ms with
  | nil => exact List.Pairwise.nil
  | cons a l ih =>
    rw [List.pairwise_cons] at h
    refine List.pairwise_cons.mpr ⟨?_, ih (fun m hm => hf m (List.mem_cons_of_mem a hm)) h.2⟩
    intro b hb
    obtain ⟨b0, hb0, rfl⟩ := List.mem_map.mp hb
    rw [hf a (List.mem_cons_self a l), hf b0 (List.mem_cons_of_mem a hb0)]
    exact h.1 b0 hb0

theorem storeWF_filter {ms : List CustomModel} {p : CustomModel → Bool}
    (h : ms.Pairwise (fun a b => a.id ≠ b.id)) :
    (ms.filter p).Pairwise (fun a b => a.id ≠ b.id) :=
  h.sublist (List.filter_sublist ms)

theorem stepOp_preserves_wf (st : StoreState) (op : Op) (hwf : storeWF st) :
    storeWF (stepOp st op) := by
  cases op with
  | createModel nid nm en rg tl bs pr vr ds av nw =>
    simp only [stepOp, applyOp]
    cases happ : create_model st nid nm en rg tl bs pr vr ds av nw with
    | error e => exact hwf
    | ok st2 =>
      show storeWF st2
      obtain ⟨mnew, vv, cfg, hmodels, _, hid, _, _, _, _, _, hall⟩ := create_model_ok_elim happ
      unfold storeWF
      rw [hmodels, List.pairwise_append]
      refine ⟨hwf, List.pairwise_singleton _ _, ?_⟩
      intro a ha b hb
      simp only [List.mem_singleton] at hb
      subst hb
      rw [hid]
      have hane := (List.all_eq_true.mp hall) a ha
      exact fun hcontra => by simp [hcontra] at hane
  | createVersion mid vr en rg tl bs pr ds av nw =>
    simp only [stepOp, applyOp]
    cases happ : create_model_version st mid vr en rg tl bs pr ds av nw with
    | error e => exact hwf
    | ok st2 =>
      show storeWF st2
      obtain ⟨m0, vv, cfg, settings, vt, base2, sp, _, _, _, _, hmodels⟩ :=
        create_model_version_ok_elim happ
      unfold storeWF
      rw [hmodels]
      refine storeWF_map (fun m _ => ?_) hwf
      by_cases hc : m.id == mid <;> simp [hc]
  | updateModel mid nm en rg tl bs pr vr av nw =>
    simp only [stepOp, applyOp]
    cases happ : update_model st mid nm en rg tl bs pr vr av nw with
    | error e => exact hwf
    | ok st2 =>
      show storeWF st2
      obtain ⟨nameUpd, versionUpd, toolsUpd, _, _, hmodels⟩ := update_model_ok_elim happ
      unfold storeWF
      rw [hmodels]
      refine storeWF_map (fun m _ => ?_) hwf
      by_cases hc : m.id == mid <;> simp [hc]
  | activateVersion mid vr nw =>
    simp only [stepOp, applyOp]
    cases happ : activate_model_version st mid vr nw with
    | error e => exact hwf
    | ok st2 =>
      show storeWF st2
      obtain ⟨m0, vv, _, _, hmodels⟩ := activate_model_version_ok_elim happ
      unfold storeWF
      rw [hmodels]
      refine storeWF_map (fun m _ => ?_) hwf
      by_cases hc : m.id == mid <;> simp [hc]
  | deactivateVersion mid vr nw =>
    simp only [stepOp, applyOp]
    cases happ : deactivate_model_version st mid vr nw with
    | error e => exact hwf
    | ok st2 =>
      show storeWF st2
      obtain ⟨m0, vv, _, _, _, _, hmodels⟩ := deactivate_model_version_ok_elim happ
      unfold storeWF
      rw [hmodels]
      refine storeWF_map (fun m _ => ?_) hwf
      by_cases hc : m.id == mid <;> simp [hc]
  | activateModel mid =>
    simp only [stepOp, applyOp]
    cases happ : activate_model st mid with
    | error e => exact hwf
    | ok st2 =>
      show storeWF st2
      have hmodels := activate_model_ok_elim happ
      unfold storeWF
      rw [hmodels]
      exact hwf
  | removeActiveModel mid =>
    simp only [stepOp, applyOp]
    cases happ : remove_active_model st mid with
    | error e => exact hwf
    | ok st2 =>
      show storeWF st2
      have hmodels := remove_active_model_ok_elim happ
      unfold storeWF
      rw [hmodels]
      exact hwf
  | deleteModel mid =>
    simp only [stepOp, applyOp]
    cases happ : delete_model st mid with
    | error e => exact hwf
    | ok st2 =>
      show storeWF st2
      have hmodels := delete_model_ok_elim happ
      unfold storeWF
      rw [hmodels]
      exact storeWF_filter hwf

/-! ### Preservation of the non-empty active_versions invariant (C1) -/

theorem get_model_mem {st : StoreState} {mid : String} {m0 : CustomModel}
    (h : get_model st mid = some m0) : m0 ∈ st.models ∧ m0.id = mid := by
  unfold get_model at h
  refine ⟨List.mem_of_find?_eq_some h, ?_⟩
  have := List.find?_some h
  simpa using this

theorem storeWF_unique {st : StoreState} {mid : String} {m0 m : CustomModel}
    (hwf : storeWF st) (h0 : get_model st mid = some m0)
    (hm : m ∈ st.models) (hid : m.id = mid) : m = m0 := by
  obtain ⟨hmem0, hid0⟩ := get_model_mem h0
  by_contra hne
  have hsym : Symmetric (fun a b : CustomModel => a.id ≠ b.id) :=
    fun a b hab hba => hab hba.symm
  exact (List.Pairwise.forall hsym hwf hm hmem0 hne) (hid.trans hid0.symm)

theorem stepOp_preserves_active (st : StoreState) (op : Op)
    (hwf : storeWF st) (hinv : activeNonEmptyInv st) :
    activeNonEmptyInv (stepOp st op) := by
  cases op with
  | createModel nid nm en rg tl bs pr vr ds av nw =>
    simp only [stepOp, applyOp]
    cases happ : create_model st nid nm en rg tl bs pr vr ds av nw with
    | error e => exact hinv
    | ok st2 =>
      show activeNonEmptyInv st2
      obtain ⟨mnew, vv, cfg, hmodels, _, _, hhist, hact, _, _, _, _⟩ := create_model_ok_elim happ
      intro m2 hm2 hh
      rw [hmodels] at hm2
      rcases List.mem_append.mp hm2 with hold | hnew
      · exact hinv m2 hold hh
      · simp only [List.mem_singleton] at hnew
        subst hnew
        rw [hact]
        simp
  | createVersion mid vr en rg tl bs pr ds av nw =>
    simp only [stepOp, applyOp]
    cases happ : create_model_version st mid vr en rg tl bs pr ds av nw with
    | error e => exact hinv
    | ok st2 =>
      show activeNonEmptyInv st2
      obtain ⟨m0, vv, cfg, settings, vt, base2, sp, _, _, _, _, hmodels⟩ :=
        create_model_version_ok_elim happ
      intro m2 hm2 hh
      rw [hmodels] at hm2
      obtain ⟨m, hm, rfl⟩ := List.mem_map.mp hm2
      by_cases hc : (m.id == mid) = true
      · rw [if_pos hc] at hh ⊢
        simp only []
        cases hcon : m.active_versions.contains vv with
        | true => simp [hcon]; exact List.ne_nil_of_mem (List.mem_of_elem_eq_true hcon)
        | false => simp [hcon]
      · rw [if_neg hc] at hh ⊢
        exact hinv m hm hh
  | updateModel mid nm en rg tl bs pr vr av nw =>
    simp only [stepOp, applyOp]
    cases happ : update_model st mid nm en rg tl bs pr vr av nw with
    | error e => exact hinv
    | ok st2 =>
      show activeNonEmptyInv st2
      obtain ⟨nameUpd, versionUpd, toolsUpd, _, _, hmodels⟩ := update_model_ok_elim happ
      intro m2 hm2 hh
      rw [hmodels] at hm2
      obtain ⟨m, hm, rfl⟩ := List.mem_map.mp hm2
      by_cases hc : (m.id == mid) = true
      · rw [if_pos hc] at hh ⊢
        exact hinv m hm hh
      · rw [if_neg hc] at hh ⊢
        exact hinv m hm hh
  | activateVersion mid vr nw =>
    simp only [stepOp, applyOp]
    cases happ : activate_model_version st mid vr nw with
    | error e => exact hinv
    | ok st2 =>
      show activeNonEmptyInv st2
      obtain ⟨m0, vv, _, _, hmodels⟩ := activate_model_version_ok_elim happ
      intro m2 hm2 hh
      rw [hmodels] at hm2
      obtain ⟨m, hm, rfl⟩ := List.mem_map.mp hm2
      by_cases hc : (m.id == mid) = true
      · rw [if_pos hc] at hh ⊢
        simp only [] at hh ⊢
        cases hcon : m.active_versions.contains vv with
        | true =>
          simp only [hcon, if_true]
          exact List.ne_nil_of_mem (List.mem_of_elem_eq_true hcon)
        | false =>
          simp [hcon]
      · rw [if_neg hc] at hh ⊢
        exact hinv m hm hh
  | deactivateVersion mid vr nw =>
    simp only [stepOp, applyOp]
    cases happ : deactivate_model_version st mid vr nw with
    | error e => exact hinv
    | ok st2 =>
      show activeNonEmptyInv st2
      obtain ⟨m0, vv, hget, _, hens, _, hmodels⟩ := deactivate_model_version_ok_elim happ
      intro m2 hm2 hh
      rw [hmodels] at hm2
      obtain ⟨m, hm, rfl⟩ := List.mem_map.mp hm2
      by_cases hc : (m.id == mid) = true
      · have hmeq : m = m0 := storeWF_unique hwf hget hm (by simpa using hc)
        rw [if_pos hc] at hh ⊢
        simp only [] at hh ⊢
        cases hcon : m.active_versions.contains vv with
        | true =>
          simp only [hcon, if_true]
          have hmem : vv ∈ m.active_versions := List.mem_of_elem_eq_true hcon
          have hlen1 : m.active_versions.length ≠ 1 := by
            intro hl
            exact hens ⟨by rw [← hmeq]; exact hl, by rw [← hmeq]; exact hcon⟩
          have hpos : 0 < m.active_versions.length := List.length_pos_of_mem hmem
          have hlen : 0 < (m.active_versions.erase vv).length := by
            rw [List.length_erase_of_mem hmem]
            omega
          exact List.length_pos.mp hlen
        | false =>
          rw [if_neg (by simp [hcon])]
          have hh2 : m.version_history ≠ [] := by
            intro hnil
            rw [hnil] at hh
            simp at hh
          exact hinv m hm hh2
      · rw [if_neg hc] at hh ⊢
        exact hinv m hm hh
  | activateModel mid =>
    simp only [stepOp, applyOp]
    cases happ : activate_model st mid with
    | error e => exact hinv
    | ok st2 =>
      show activeNonEmptyInv st2
      have hmodels := activate_model_ok_elim happ
      intro m2 hm2 hh
      rw [hmodels] at hm2
      exact hinv m2 hm2 hh
  | removeActiveModel mid =>
    simp only [stepOp, applyOp]
    cases happ : remove_active_model st mid with
    | error e => exact hinv
    | ok st2 =>
      show activeNonEmptyInv st2
      have hmodels := remove_active_model_ok_elim happ
      intro m2 hm2 hh
      rw [hmodels] at hm2
      exact hinv m2 hm2 hh
  | deleteModel mid =>
    simp only [stepOp, applyOp]
    cases happ : delete_model st mid with
    | error e => exact hinv
    | ok st2 =>
      show activeNonEmptyInv st2
      have hmodels := delete_model_ok_elim happ
      intro m2 hm2 hh
      rw [hmodels] at hm2
      exact hinv m2 (List.mem_of_mem_filter hm2) hh

/-! ### Preservation of current_version = latest created version (C4) -/

theorem getLast?_map {α β : Type} (f : α → β) (l : List α) :
    (l.map f).getLast? = l.getLast?.map f := by
  induction l with
  | nil => rfl
  | cons a l ih =>
    cases l with
    | nil => rfl
    | cons b t =>
      rw [List.map_cons, List.map_cons, List.getLast?_cons_cons, List.getLast?_cons_cons]
      simpa using ih

/-- Whether a call leaves the current-version bookkeeping to the store: every
operation except an update_model that supplies an explicit version field. -/
def keepsVersionField : Op → Prop
  | .updateModel _ _ _ _ _ _ _ version _ _ => version = none
  | _ => True

theorem histLast_fst_preserved {h : List (String × ModelVersionConfig)}
    {f : String × ModelVersionConfig → String × ModelVersionConfig}
    (hf : ∀ p, (f p).1 = p.1) :
    (h.map f).getLast?.map Prod.fst = h.getLast?.map Prod.fst := by
  rw [getLast?_map, Option.map_map]
  have hfun : Prod.fst ∘ f = Prod.fst := funext fun p => hf p
  rw [hfun]

theorem stepOp_preserves_latest (st : StoreState) (op : Op)
    (hop : keepsVersionField op) (hinv : currentIsLatest st) :
    currentIsLatest (stepOp st op) := by
  cases op with
  | createModel nid nm en rg tl bs pr vr ds av nw =>
    simp only [stepOp, applyOp]
    cases happ : create_model st nid nm en rg tl bs pr vr ds av nw with
    | error e => exact hinv
    | ok st2 =>
      show currentIsLatest st2
      obtain ⟨mnew, vv, cfg, hmodels, _, _, hhist, _, hver, _, _, _⟩ := create_model_ok_elim happ
      intro m2 hm2
      rw [hmodels] at hm2
      rcases List.mem_append.mp hm2 with hold | hnew
      · exact hinv m2 hold
      · simp only [List.mem_singleton] at hnew
        subst hnew
        rw [hhist, hver]
        rfl
  | createVersion mid vr en rg tl bs pr ds av nw =>
    simp only [stepOp, applyOp]
    cases happ : create_model_version st mid vr en rg tl bs pr ds av nw with
    | error e => exact hinv
    | ok st2 =>
      show currentIsLatest st2
      obtain ⟨m0, vv, cfg, settings, vt, base2, sp, _, _, _, _, hmodels⟩ :=
        create_model_version_ok_elim happ
      intro m2 hm2
      rw [hmodels] at hm2
      obtain ⟨m, hm, rfl⟩ := List.mem_map.mp hm2
      by_cases hc : (m.id == mid) = true
      · rw [if_pos hc]
        simp only []
        rw [List.getLast?_append_cons]
        rfl
      · rw [if_neg hc]
        exact hinv m hm
  | updateModel mid nm en rg tl bs pr vr av nw =>
    simp only [stepOp, applyOp]
    cases happ : update_model st mid nm en rg tl bs pr vr av nw with
    | error e => exact hinv
    | ok st2 =>
      show currentIsLatest st2
      obtain ⟨nameUpd, versionUpd, toolsUpd, _, hvnone, hmodels⟩ := update_model_ok_elim happ
      have hv0 : versionUpd = none := hvnone hop
      subst hv0
      intro m2 hm2
      rw [hmodels] at hm2
      obtain ⟨m, hm, rfl⟩ := List.mem_map.mp hm2
      by_cases hc : (m.id == mid) = true
      · rw [if_pos hc]
        simpa using hinv m hm
      · rw [if_neg hc]
        exact hinv m hm
  | activateVersion mid vr nw =>
    simp only [stepOp, applyOp]
    cases happ : activate_model_version st mid vr nw with
    | error e => exact hinv
    | ok st2 =>
      show currentIsLatest st2
      obtain ⟨m0, vv, _, _, hmodels⟩ := activate_model_version_ok_elim happ
      intro m2 hm2
      rw [hmodels] at hm2
      obtain ⟨m, hm, rfl⟩ := List.mem_map.mp hm2
      by_cases hc : (m.id == mid) = true
      · rw [if_pos hc]
        show (m.version_history.map _).getLast?.map Prod.fst = some m.version
        rw [histLast_fst_preserved (fun p => by
          by_cases hcc : (p.1 == vv) = true
          · rw [if_pos hcc]
          · rw [if_neg hcc])]
        exact hinv m hm
      · rw [if_neg hc]
        exact hinv m hm
  | deactivateVersion mid vr nw =>
    simp only [stepOp, applyOp]
    cases happ : deactivate_model_version st mid vr nw with
    | error e => exact hinv
    | ok st2 =>
      show currentIsLatest st2
      obtain ⟨m0, vv, _, _, _, _, hmodels⟩ := deactivate_model_version_ok_elim happ
      intro m2 hm2
      rw [hmodels] at hm2
      obtain ⟨m, hm, rfl⟩ := List.mem_map.mp hm2
      by_cases hc : (m.id == mid) = true
      · rw [if_pos hc]
        show (m.version_history.map _).getLast?.map Prod.fst = some m.version
        rw [histLast_fst_preserved (fun p => by
          by_cases hcc : (p.1 == vv) = true
          · rw [if_pos hcc]
          · rw [if_neg hcc])]
        exact hinv m hm
      · rw [if_neg hc]
        exact hinv m hm
  | activateModel mid =>
    simp only [stepOp, applyOp]
    cases happ : activate_model st mid with
    | error e => exact hinv
    | ok st2 =>
      show currentIsLatest st2
      have hmodels := activate_model_ok_elim happ
      intro m2 hm2
      rw [hmodels] at hm2
      exact hinv m2 hm2
  | removeActiveModel mid =>
    simp only [stepOp, applyOp]
    cases happ : remove_active_model st mid with
    | error e => exact hinv
    | ok st2 =>
      show currentIsLatest st2
      have hmodels := remove_active_model_ok_elim happ
      intro m2 hm2
      rw [hmodels] at hm2
      exact hinv m2 hm2
  | deleteModel mid =>
    simp only [stepOp, applyOp]
    cases happ : delete_model st mid with
    | error e => exact hinv
    | ok st2 =>
      show currentIsLatest st2
      have hmodels := delete_model_ok_elim happ
      intro m2 hm2
      rw [hmodels] at hm2
      exact hinv m2 (List.mem_of_mem_filter hm2)

/-! ### Preservation of the model_params whitelist invariant (C10) -/

theorem stepOp_preserves_params (st : StoreState) (op : Op)
    (hinv : modelParamsInv st) : modelParamsInv (stepOp st op) := by
  cases op with
  | createModel nid nm en rg tl bs pr vr ds av nw =>
    simp only [stepOp, applyOp]
    cases happ : create_model st nid nm en rg tl bs pr vr ds av nw with
    | error e => exact hinv
    | ok st2 =>
      show modelParamsInv st2
      obtain ⟨mnew, vv, cfg, hmodels, _, _, hhist, _, _, hcfgp, hsafe, _⟩ :=
        create_model_ok_elim happ
      have hallowed : paramsAllowed mnew.model_params := by
        rcases hsafe with hnil | ⟨ps, hps⟩
        · rw [hnil]; exact paramsAllowed_nil
        · rw [hps]; exact paramsAllowed_filterParams ps
      intro m2 hm2
      rw [hmodels] at hm2
      rcases List.mem_append.mp hm2 with hold | hnew
      · exact hinv m2 hold
      · simp only [List.mem_singleton] at hnew
        subst hnew
        refine ⟨hallowed, ?_⟩
        intro p hp
        rw [hhist] at hp
        simp only [List.mem_singleton] at hp
        subst hp
        rw [hcfgp]
        exact hallowed
  | createVersion mid vr en rg tl bs pr ds av nw =>
    simp only [stepOp, applyOp]
    cases happ : create_model_version st mid vr en rg tl bs pr ds av nw with
    | error e => exact hinv
    | ok st2 =>
      show modelParamsInv st2
      obtain ⟨m0, vv, cfg, settings, vt, base2, sp, hget, _, hsp, hcfg, hmodels⟩ :=
        create_model_version_ok_elim happ
      have hspAllowed : paramsAllowed sp := by
        rcases hsp with h0 | ⟨ps, hps⟩
        · rw [h0]
          exact (hinv m0 (get_model_mem hget).1).1
        · rw [hps]; exact paramsAllowed_filterParams ps
      intro m2 hm2
      rw [hmodels] at hm2
      obtain ⟨m, hm, rfl⟩ := List.mem_map.mp hm2
      by_cases hc : (m.id == mid) = true
      · rw [if_pos hc]
        refine ⟨hspAllowed, ?_⟩
        intro p hp
        simp only [] at hp
        rcases List.mem_append.mp hp with hold | hnew
        · exact (hinv m hm).2 p hold
        · simp only [List.mem_singleton] at hnew
          subst hnew
          show paramsAllowed cfg.model_params
          rw [hcfg]
          exact hspAllowed
      · rw [if_neg hc]
        exact hinv m hm
  | updateModel mid nm en rg tl bs pr vr av nw =>
    simp only [stepOp, applyOp]
    cases happ : update_model st mid nm en rg tl bs pr vr av nw with
    | error e => exact hinv
    | ok st2 =>
      show modelParamsInv st2
      obtain ⟨nameUpd, versionUpd, toolsUpd, _, _, hmodels⟩ := update_model_ok_elim happ
      intro m2 hm2
      rw [hmodels] at hm2
      obtain ⟨m, hm, rfl⟩ := List.mem_map.mp hm2
      by_cases hc : (m.id == mid) = true
      · rw [if_pos hc]
        refine ⟨?_, ?_⟩
        · show paramsAllowed (updParamsField m.model_params pr)
          cases pr with
          | none => exact (hinv m hm).1
          | some ps => exact paramsAllowed_filterParams ps
        · intro p hp
          exact (hinv m hm).2 p hp
      · rw [if_neg hc]
        exact hinv m hm
  | activateVersion mid vr nw =>
    simp only [stepOp, applyOp]
    cases happ : activate_model_version st mid vr nw with
    | error e => exact hinv
    | ok st2 =>
      show modelParamsInv st2
      obtain ⟨m0, vv, _, _, hmodels⟩ := activate_model_version_ok_elim happ
      intro m2 hm2
      rw [hmodels] at hm2
      obtain ⟨m, hm, rfl⟩ := List.mem_map.mp hm2
      by_cases hc : (m.id == mid) = true
      · rw [if_pos hc]
        refine ⟨(hinv m hm).1, ?_⟩
        intro p hp
        simp only [] at hp
        obtain ⟨q, hq, rfl⟩ := List.mem_map.mp hp
        by_cases hcc : (q.1 == vv) = true
        · rw [if_pos hcc]
          exact (hinv m hm).2 q hq
        · rw [if_neg hcc]
          exact (hinv m hm).2 q hq
      · rw [if_neg hc]
        exact hinv m hm
  | deactivateVersion mid vr nw =>
    simp only [stepOp, applyOp]
    cases happ : deactivate_model_version st mid vr nw with
    | error e => exact hinv
    | ok st2 =>
      show modelParamsInv st2
      obtain ⟨m0, vv, _, _, _, _, hmodels⟩ := deactivate_model_version_ok_elim happ
      intro m2 hm2
      rw [hmodels] at hm2
      obtain ⟨m, hm, rfl⟩ := List.mem_map.mp hm2
      by_cases hc : (m.id == mid) = true
      · rw [if_pos hc]
        refine ⟨(hinv m hm).1, ?_⟩
        intro p hp
        simp only [] at hp
        obtain ⟨q, hq, rfl⟩ := List.mem_map.mp hp
        by_cases hcc : (q.1 == vv) = true
        · rw [if_pos hcc]
          exact (hinv m hm).2 q hq
        · rw [if_neg hcc]
          exact (hinv m hm).2 q hq
      · rw [if_neg hc]
        exact hinv m hm
  | activateModel mid =>
    simp only [stepOp, applyOp]
    cases happ : activate_model st mid with
    | error e => exact hinv
    | ok st2 =>
      show modelParamsInv st2
      have hmodels := activate_model_ok_elim happ
      intro m2 hm2
      rw [hmodels] at hm2
      exact hinv m2 hm2
  | removeActiveModel mid =>
    simp only [stepOp, applyOp]
    cases happ : remove_active_model st mid with
    | error e => exact hinv
    | ok st2 =>
      show modelParamsInv st2
      have hmodels := remove_active_model_ok_elim happ
      intro m2 hm2
      rw [hmodels] at hm2
      exact hinv m2 hm2
  | deleteModel mid =>
    simp only [stepOp, applyOp]
    cases happ : delete_model st mid with
    | error e => exact hinv
    | ok st2 =>
      show modelParamsInv st2
      have hmodels := delete_model_ok_elim happ
      intro m2 hm2
      rw [hmodels] at hm2
      exact hinv m2 (List.mem_of_mem_filter hm2)

/-! ### Invariants over whole call sequences -/

theorem run_preserves_wf_active : ∀ (ops : List Op) (st : StoreState),
    storeWF st → activeNonEmptyInv st →
    storeWF (run st ops) ∧ activeNonEmptyInv (run st ops) := by
  intro ops
  induction ops with
  | nil => exact fun st hwf hinv => ⟨hwf, hinv⟩
  | cons op ops ih =>
    intro st hwf hinv
    exact ih (stepOp st op) (stepOp_preserves_wf st op hwf)
      (stepOp_preserves_active st op hwf hinv)

theorem run_preserves_latest : ∀ (ops : List Op) (st : StoreState),
    (∀ op ∈ ops, keepsVersionField op) → currentIsLatest st →
    currentIsLatest (run st ops) := by
  intro ops
  induction ops with
  | nil => exact fun st _ hinv => hinv
  | cons op ops ih =>
    intro st hops hinv
    exact ih (stepOp st op) (fun o ho => hops o (List.mem_cons_of_mem op ho))
      (stepOp_preserves_latest st op (hops op (List.mem_cons_self op ops)) hinv)

theorem run_preserves_params : ∀ (ops : List Op) (st : StoreState),
    modelParamsInv st → modelParamsInv (run st ops) := by
  intro ops
  induction ops with
  | nil => exact fun st hinv => hinv
  | cons op ops ih =>
    intro st hinv
    exact ih (stepOp st op) (stepOp_preserves_params st op hinv)

/-! ### Small evaluation helpers and concrete fixtures for the claims -/

theorem ok_bind {α β : Type} (a : α) (f : α → Except Err β) :
    (Except.ok a : Except Err α) >>= f = f a := rfl

theorem error_bind {α β : Type} (e : Err) (f : α → Except Err β) :
    (Except.error e : Except Err α) >>= f = .error e := rfl

theorem ensure_of {p : Prop} [Decidable p] {e : Err} (hp : p) :
    ensure p e = .ok () := by
  simp [ensure, hp]

/-- A minimal version row shared by the concrete test states. -/
def cfg100 : ModelVersionConfig :=
  { version := "1.0.0", enabled := true, rag_settings := defaultRagSettings,
    tool_names := ["get_datetime"], base_model := none, model_params := [],
    created_at := some "t0", description := some "Initial version" }

/-- A second stored version row. -/
def cfg200 : ModelVersionConfig :=
  { version := "2.0.0", enabled := true, rag_settings := defaultRagSettings,
    tool_names := ["get_datetime"], base_model := none, model_params := [],
    created_at := some "t1", description := some "second" }

/-- A stored model whose name contains no underscore. -/
def modelAxb : CustomModel :=
  { id := "aaaa0001", name := "axb", version := "1.0.0", enabled := true,
    rag_settings := defaultRagSettings, tool_names := ["get_datetime"],
    base_model := none, model_params := [], created_at := some "t0",
    updated_at := some "t0", version_history := [("1.0.0", cfg100)],
    active_versions := ["1.0.0"] }

/-- A stored model whose name contains an underscore (a valid name). -/
def modelAub : CustomModel :=
  { id := "aaaa0002", name := "a_b", version := "1.0.0", enabled := true,
    rag_settings := defaultRagSettings, tool_names := ["get_datetime"],
    base_model := none, model_params := [], created_at := some "t0",
    updated_at := some "t0", version_history := [("1.0.0", cfg100)],
    active_versions := ["1.0.0"] }

/-- A stored model named foo with two versions in history. -/
def modelFoo : CustomModel :=
  { id := "aaaa0003", name := "foo", version := "2.0.0", enabled := true,
    rag_settings := defaultRagSettings, tool_names := ["get_datetime"],
    base_model := none, model_params := [], created_at := some "t0",
    updated_at := some "t1", version_history := [("1.0.0", cfg100), ("2.0.0", cfg200)],
    active_versions := ["1.0.0", "2.0.0"] }

/-- A pre-versioning legacy record: current version absent from history. -/
def modelLegacy : CustomModel :=
  { id := "aaaa0004", name := "legacy-model", version := "3.0.0", enabled := true,
    rag_settings := defaultRagSettings, tool_names := ["get_datetime"],
    base_model := none, model_params := [], created_at := some "t0",
    updated_at := some "t0", version_history := [], active_versions := [] }

/-! ### C1 -/

/-- C1: deactivate_model_version raises (and commits nothing) whenever the
targeted version is the sole member of active_versions, and consequently no
sequence of store calls can take a model whose version_history is non-empty
to an empty active_versions list (storeWF is the primary-key constraint the
database enforces on every reachable state). -/
theorem deactivate_never_empties_active_versions :
    (∀ (st : StoreState) (model_id v now : String) (m : CustomModel),
      get_model st model_id = some m →
      validate_version v = .ok v →
      m.active_versions = [v] →
      (∃ e, deactivate_model_version st model_id v now = .error e) ∧
      run st [Op.deactivateVersion model_id v now] = st) ∧
    (∀ (st : StoreState) (ops : List Op), storeWF st → activeNonEmptyInv st →
      activeNonEmptyInv (run st ops)) := by
  constructor
  · intro st model_id v now m hm hv hact
    have herr : ∀ st2, deactivate_model_version st model_id v now ≠ .ok st2 := by
      intro st2 hok
      obtain ⟨m0, vv, hget, hvv, hens, _, _⟩ := deactivate_model_version_ok_elim hok
      rw [hm] at hget
      injection hget with hm0
      rw [hv] at hvv
      injection hvv with hvv0
      apply hens
      constructor
      · rw [← hm0, hact]
        rfl
      · rw [← hm0, hact, ← hvv0]
        simp
    constructor
    · cases hres : deactivate_model_version st model_id v now with
      | error e => exact ⟨e, rfl⟩
      | ok st2 => exact absurd hres (herr st2)
    · show run st [Op.deactivateVersion model_id v now] = st
      simp only [run, stepOp, applyOp]
      cases hres : deactivate_model_version st model_id v now with
      | error e => rfl
      | ok st2 => exact absurd hres (herr st2)
  · intro st ops hwf hinv
    exact (run_preserves_wf_active ops st hwf hinv).2

/-- Witness for C1 at a concrete store: a model whose only active version is
1.0.0 rejects deactivating it, and a store satisfying the invariants keeps
them through a sequence of two deactivation attempts. -/
theorem deactivate_never_empties_active_versions_witness :
    ((∃ e, deactivate_model_version { models := [modelAxb], activeModels := ["aaaa0001"] }
        "aaaa0001" "1.0.0" "t1" = .error e) ∧
      run { models := [modelAxb], activeModels := ["aaaa0001"] }
        [Op.deactivateVersion "aaaa0001" "1.0.0" "t1"] =
        { models := [modelAxb], activeModels := ["aaaa0001"] }) ∧
    activeNonEmptyInv (run { models := [modelAxb], activeModels := ["aaaa0001"] }
      [Op.deactivateVersion "aaaa0001" "1.0.0" "t1",
       Op.deactivateVersion "aaaa0001" "1.0.0" "t2"]) :=
  ⟨deactivate_never_empties_active_versions.1
      { models := [modelAxb], activeModels := ["aaaa0001"] }
      "aaaa0001" "1.0.0" "t1" modelAxb (by decide) (by decide) (by decide),
   deactivate_never_empties_active_versions.2
      { models := [modelAxb], activeModels := ["aaaa0001"] }
      [Op.deactivateVersion "aaaa0001" "1.0.0" "t1",
       Op.deactivateVersion "aaaa0001" "1.0.0" "t2"]
      (by unfold storeWF; exact List.pairwise_singleton _ _)
      (by intro m hm hne; rw [List.mem_singleton] at hm; subst hm; decide)⟩

/-! ### C2 -/

/-- C2: for an existing model and a well-formed semver string, creating a
version that already exists in version_history, or that is not strictly
greater than the current version under componentwise integer comparison,
raises a ValueError (so nothing is committed); and the comparison really is
numeric: 1.10.0 is greater than 1.9.0 and 0.9.0 is smaller than 1.0.0. -/
theorem create_version_rejects_duplicate_or_not_greater :
    (∀ (st : StoreState) (model_id v : String) (m : CustomModel) (en : Bool)
        (rag : Option RagSettings) (tools : Option (List String)) (base : Option String)
        (params : Option (List (String × JsonVal))) (descr : Option String)
        (avail : List String) (now : String),
      get_model st model_id = some m →
      validate_version v = .ok v →
      ((m.version_history.lookup v).isSome ∨
        ∃ c : Int, compare_versions v m.version = .ok c ∧ c ≤ 0) →
      (∃ msg, create_model_version st model_id v en rag tools base params descr avail now =
        .error (.valueError msg)) ∧
      run st [Op.createVersion model_id v en rag tools base params descr avail now] = st) ∧
    compare_versions "1.10.0" "1.9.0" = .ok 1 ∧
    compare_versions "0.9.0" "1.0.0" = .ok (-1) := by
  refine ⟨?_, by decide, by decide⟩
  intro st model_id v m en rag tools base params descr avail now hm hv hbad
  have hg : getModelE st model_id = .ok m := getModelE_ok.mpr hm
  have herr : ∃ msg, create_model_version st model_id v en rag tools base params descr avail now =
      .error (.valueError msg) := by
    unfold create_model_version
    rw [hg, ok_bind, hv, ok_bind]
    cases hl : m.version_history.lookup v with
    | some cfg =>
      rw [ensure_not_ok (by simp [hl]), error_bind]
      exact ⟨_, rfl⟩
    | none =>
      rcases hbad with hdup | ⟨c, hc, hcle⟩
      · rw [hl] at hdup
        simp at hdup
      · rw [ensure_of (by simp [hl]), ok_bind, hc, ok_bind,
          ensure_not_ok (by omega), error_bind]
        exact ⟨_, rfl⟩
  refine ⟨herr, ?_⟩
  show run st [Op.createVersion model_id v en rag tools base params descr avail now] = st
  simp only [run, stepOp, applyOp]
  obtain ⟨msg, hmsg⟩ := herr
  rw [hmsg]

/-- Witness for C2 at a concrete store: recreating the existing version
1.0.0 fails, and creating 0.9.0 while the current version is 1.0.0 fails. -/
theorem create_version_rejects_duplicate_or_not_greater_witness :
    (∃ msg, create_model_version { models := [modelAxb], activeModels := ["aaaa0001"] }
      "aaaa0001" "1.0.0" true none none none none none ["get_datetime"] "t1" =
      .error (.valueError msg)) ∧
    (∃ msg, create_model_version { models := [modelAxb], activeModels := ["aaaa0001"] }
      "aaaa0001" "0.9.0" true none none none none none ["get_datetime"] "t1" =
      .error (.valueError msg)) :=
  ⟨(create_version_rejects_duplicate_or_not_greater.1
      { models := [modelAxb], activeModels := ["aaaa0001"] } "aaaa0001" "1.0.0" modelAxb
      true none none none none none ["get_datetime"] "t1"
      (by decide) (by decide) (Or.inl (by decide))).1,
   (create_version_rejects_duplicate_or_not_greater.1
      { models := [modelAxb], activeModels := ["aaaa0001"] } "aaaa0001" "0.9.0" modelAxb
      true none none none none none ["get_datetime"] "t1"
      (by decide) (by decide) (Or.inr ⟨-1, by decide, by decide⟩)).1⟩

/-! ### C4 -/

/-- C4 counterexample: update_model with an explicit version field rewrites
current_version without creating a version row, so after creating a model at
1.0.0 and updating its version field to 2.0.0, current_version is 2.0.0
while the only version ever created is 1.0.0. -/
theorem update_model_overrides_current_version :
    ((run { models := [], activeModels := [] }
        [Op.createModel "m1" "mymodel" true none (some ["get_datetime"]) none none
           "1.0.0" none ["get_datetime"] "t0",
         Op.updateModel "m1" none none none none none none (some "2.0.0")
           ["get_datetime"] "t1"]).models.map
        (fun m => (m.id, m.version, m.version_history.map Prod.fst))) =
      [("m1", "2.0.0", ["1.0.0"])] ∧
    ¬ currentIsLatest (run { models := [], activeModels := [] }
        [Op.createModel "m1" "mymodel" true none (some ["get_datetime"]) none none
           "1.0.0" none ["get_datetime"] "t0",
         Op.updateModel "m1" none none none none none none (some "2.0.0")
           ["get_datetime"] "t1"]) := by
  refine ⟨by decide, ?_⟩
  unfold currentIsLatest
  decide

/-- C4 amended: over any sequence of store calls in which no update_model
supplies an explicit version argument, every model's current version field
stays equal to the version of its most recently created version row. -/
theorem current_version_is_latest_without_version_override :
    ∀ (st : StoreState) (ops : List Op),
      (∀ op ∈ ops, keepsVersionField op) → currentIsLatest st →
      currentIsLatest (run st ops) :=
  fun st ops hops hinv => run_preserves_latest ops st hops hinv

/-- Witness for the amended C4: a create / create-version / deactivate
sequence from the empty store keeps current_version equal to the most
recently created version. -/
theorem current_version_is_latest_without_version_override_witness :
    currentIsLatest (run { models := [], activeModels := [] }
      [Op.createModel "m1" "mymodel" true none (some ["get_datetime"]) none none
         "1.0.0" none ["get_datetime"] "t0",
       Op.createVersion "m1" "1.1.0" true none none none none none ["get_datetime"] "t1",
       Op.deactivateVersion "m1" "1.0.0" "t2"]) :=
  current_version_is_latest_without_version_override
    { models := [], activeModels := [] }
    [Op.createModel "m1" "mymodel" true none (some ["get_datetime"]) none none
       "1.0.0" none ["get_datetime"] "t0",
     Op.createVersion "m1" "1.1.0" true none none none none none ["get_datetime"] "t1",
     Op.deactivateVersion "m1" "1.0.0" "t2"]
    (by intro op hop; fin_cases hop <;> simp [keepsVersionField])
    (by intro m hm; cases hm)

/-! ### C10 -/

/-- C10: every model and version row persisted by any sequence of store
calls keeps model_params keys inside the fixed whitelist - parameters with
other keys are filtered out before the write and never stored. -/
theorem model_params_keys_whitelisted :
    ∀ (st : StoreState) (ops : List Op),
      modelParamsInv st → modelParamsInv (run st ops) :=
  fun st ops hinv => run_preserves_params ops st hinv

/-- Witness for C10: creating a model with a whitelisted key and a foreign
key succeeds with only the whitelisted key stored (the foreign key is
silently dropped), and the invariant holds in the resulting store. -/
theorem model_params_keys_whitelisted_witness :
    modelParamsInv (run { models := [], activeModels := [] }
      [Op.createModel "m1" "mymodel" true none (some ["get_datetime"]) none
         (some [("temperature", JsonVal.n 1), ("evil_key", JsonVal.s "x")])
         "1.0.0" none ["get_datetime"] "t0"]) ∧
    ((run { models := [], activeModels := [] }
      [Op.createModel "m1" "mymodel" true none (some ["get_datetime"]) none
         (some [("temperature", JsonVal.n 1), ("evil_key", JsonVal.s "x")])
         "1.0.0" none ["get_datetime"] "t0"]).models.map (fun m => m.model_params)) =
      [[("temperature", JsonVal.n 1)]] :=
  ⟨model_params_keys_whitelisted { models := [], activeModels := [] }
      [Op.createModel "m1" "mymodel" true none (some ["get_datetime"]) none
         (some [("temperature", JsonVal.n 1), ("evil_key", JsonVal.s "x")])
         "1.0.0" none ["get_datetime"] "t0"]
      (by intro m hm; cases hm),
   by decide⟩

/-! ### Sanity checks for the default backslash escape of ILIKE -/

/-- An escaped underscore in the pattern is a literal underscore: a\_b
matches the stored name a_b but not axb, and a pattern ending in a bare
backslash is rejected as malformed. -/
theorem likeMatch_escaped_underscore :
    likeMatch "a\\_b".toList "a_b".toList = true ∧
    likeMatch "a\\_b".toList "axb".toList = false ∧
    likePatternOk "a\\_b".toList = true ∧
    likePatternOk "ab\\".toList = false := by decide

/-- Resolving the identifier a\_b finds the stored model literally named
a_b (the escape disarms the wildcard), while the identifier ab\ makes the
query itself raise the database error. -/
theorem resolve_escaped_identifier :
    resolve_model_identifier { models := [modelAub], activeModels := ["aaaa0002"] }
      "a\\_b" = .ok (some (modelAub, none)) ∧
    resolve_model_identifier { models := [modelAub], activeModels := ["aaaa0002"] }
      "ab\\" = .error (.dataError "LIKE pattern must not end with escape character") := by
  decide

/-! ### C5 -/

/-- C5 counterexample: the name lookup is an unescaped ILIKE, so the
underscore in the identifier a_b acts as a single-character wildcard and
resolves to the stored model named axb, although a_b equals no stored name
case-insensitively and no stored id. -/
theorem resolve_unknown_underscore_identifier_resolves :
    resolve_model_identifier { models := [modelAxb], activeModels := ["aaaa0001"] } "a_b" =
      .ok (some (modelAxb, none)) ∧
    lowerStr "a_b" ≠ lowerStr modelAxb.name ∧
    modelAxb.id ≠ "a_b" := by decide

/-- C5 amended: an identifier whose name part is a well-formed LIKE pattern
(it does not end in a bare backslash, which makes the query itself raise)
and matches no stored model name under the case-insensitive LIKE semantics
of the lookup (underscore a single-character wildcard, percent a sequence
wildcard, backslash escaping the next character to a literal) and equals no
stored model id resolves to none, raising nothing. -/
theorem resolve_unknown_identifier_unresolved
    (st : StoreState) (identifier : String)
    (hwf : likePatternOk (parse_model_identifier identifier).1.toList = true)
    (hname : ∀ m ∈ st.models,
      likeMatch (parse_model_identifier identifier).1.toList m.name.toList = false)
    (hid : ∀ m ∈ st.models, m.id ≠ (parse_model_identifier identifier).1) :
    resolve_model_identifier st identifier = .ok none := by
  rcases hp : parse_model_identifier identifier with ⟨n, ver⟩
  have hn1 : (parse_model_identifier identifier).1 = n := by rw [hp]
  rw [hn1] at hwf hname hid
  have hmatches : ilikeMatches st n = [] :=
    List.filter_eq_nil_iff.mpr (fun m hm => by
      have h0 := hname m hm
      simp only [String.toList] at h0
      simp [h0])
  have hgmbn : get_model_by_name st n = .ok none := by
    unfold get_model_by_name
    rw [if_pos hwf, hmatches]
  have hgm : get_model st n = none :=
    List.find?_eq_none.mpr (fun m hm => by simp [hid m hm])
  unfold resolve_model_identifier
  rw [hp]
  show resolveParsed st n ver = .ok none
  unfold resolveParsed
  rw [hgmbn, ok_bind, hgm]

/-- Witness for the amended C5: totally-unknown-xyz resolves to none in a
store holding one model. -/
theorem resolve_unknown_identifier_unresolved_witness :
    resolve_model_identifier { models := [modelAxb], activeModels := ["aaaa0001"] }
      "totally-unknown-xyz" = .ok none :=
  resolve_unknown_identifier_unresolved
    { models := [modelAxb], activeModels := ["aaaa0001"] } "totally-unknown-xyz"
    (by decide) (by decide) (by decide)

/-! ### C6 -/

theorem mk_toList (s : String) : String.mk s.toList = s := rfl

theorem breakAtSign_append (n v : List Char) (hn : '@' ∉ n) :
    breakAtSign (n ++ '@' :: v) = (n, some v) := by
  induction n with
  | nil => simp [breakAtSign]
  | cons c cs ih =>
    have hc : c ≠ '@' := fun h => hn (h ▸ List.mem_cons_self c cs)
    have hcs : '@' ∉ cs := fun h => hn (List.mem_cons_of_mem c h)
    simp [breakAtSign, hc, ih hcs]

theorem parse_name_at_version (n v : String) (hn : '@' ∉ n.toList) :
    parse_model_identifier (n ++ "@" ++ v) = (n, some v) := by
  unfold parse_model_identifier
  have htl : (n ++ "@" ++ v).toList = n.toList ++ '@' :: v.toList := by
    show (n ++ "@" ++ v).data = n.data ++ '@' :: v.data
    rw [String.data_append, String.data_append,
      show ("@" : String).data = ['@'] by decide, List.append_assoc]
    rfl
  rw [htl, breakAtSign_append _ _ hn]
  rfl

theorem likeMatch_of_toLower_eq :
    ∀ (p t : List Char), p.map Char.toLower = t.map Char.toLower → '%' ∉ p →
      '\\' ∉ p → likeMatch p t = true := by
  intro p
  induction p with
  | nil =>
    intro t h _ _
    cases t with
    | nil => rfl
    | cons d ds => simp at h
  | cons c cs ih =>
    intro t h hpc hbs
    cases t with
    | nil => simp at h
    | cons d ds =>
      simp only [List.map_cons, List.cons.injEq] at h
      have hc : c ≠ '%' := fun he => hpc (he ▸ List.mem_cons_self c cs)
      have hb : c ≠ '\\' := fun he => hbs (he ▸ List.mem_cons_self c cs)
      have hcs : '%' ∉ cs := fun hm => hpc (List.mem_cons_of_mem c hm)
      have hbcs : '\\' ∉ cs := fun hm => hbs (List.mem_cons_of_mem c hm)
      unfold likeMatch
      rw [if_neg hb, if_neg hc]
      simp only []
      rw [ih ds h.2 hcs hbcs, h.1]
      simp

/-- C6 counterexample: with two stored models named a_b and axb, resolving
a_b@1.0.0 makes the ILIKE lookup match both rows, and scalar_one_or_none
raises MultipleResultsFound instead of returning the model named a_b with
its stored 1.0.0 version. -/
theorem resolve_versioned_multi_match_raises :
    resolve_model_identifier { models := [modelAxb, modelAub], activeModels := ["aaaa0001"] }
      "a_b@1.0.0" = .error .multipleResultsFound ∧
    modelAub.name = "a_b" ∧
    (modelAub.version_history.lookup "1.0.0").isSome = true := by decide

/-- C6 amended: provided the queried variant and the stored name are
well-formed LIKE patterns (neither ends in a bare backslash, which makes
the query itself raise) and each matches exactly one row under the ILIKE
lookup, resolving variant@v returns the model with the exact stored version
row for v, or with the view synthesized from the current fields when v is
absent from history but equals the current version; and a pattern that
equals a target up to ASCII case (and contains no percent sign or
backslash, as every valid stored name does) always ILIKE-matches it, so any
case variant of the stored name qualifies. -/
theorem resolve_versioned_unique_match
    (st : StoreState) (m : CustomModel) (variant v : String)
    (hpv : likePatternOk variant.toList = true)
    (hpn : likePatternOk m.name.toList = true)
    (hvm : ilikeMatches st variant = [m])
    (hself : ilikeMatches st m.name = [m])
    (hat : '@' ∉ variant.toList)
    (hv : v ≠ "") :
    (∀ cfg, m.version_history.lookup v = some cfg →
      resolve_model_identifier st (variant ++ "@" ++ v) = .ok (some (m, some cfg))) ∧
    (m.version_history.lookup v = none → v = m.version →
      resolve_model_identifier st (variant ++ "@" ++ v) =
        .ok (some (m, some (synthVersionView m)))) ∧
    (∀ (p t : List Char), p.map Char.toLower = t.map Char.toLower → '%' ∉ p →
      '\\' ∉ p → likeMatch p t = true) := by
  have hparse := parse_name_at_version variant v hat
  have hb : get_model_by_name st variant = .ok (some m) := by
    unfold get_model_by_name
    rw [if_pos hpv, hvm]
  have hb2 : get_model_by_name st m.name = .ok (some m) := by
    unfold get_model_by_name
    rw [if_pos hpn, hself]
  have hlook : ∀ r, m.version_history.lookup v = r →
      get_model_by_name_and_version st m.name v =
        (match r with
         | some cfg => Except.ok (some (m, cfg))
         | none =>
           if v = m.version then Except.ok (some (m, synthVersionView m))
           else Except.ok none) := by
    intro r hr
    unfold get_model_by_name_and_version
    rw [hb2, ok_bind]
    show (match m.version_history.lookup v with
          | some cfg => Except.ok (some (m, cfg))
          | none =>
            if v = m.version then Except.ok (some (m, synthVersionView m))
            else Except.ok none) = _
    rw [hr]
  refine ⟨?_, ?_, likeMatch_of_toLower_eq⟩
  · intro cfg hcfg
    unfold resolve_model_identifier
    rw [hparse]
    show resolveParsed st variant (some v) = _
    unfold resolveParsed
    rw [hb, ok_bind]
    show (if v = "" then Except.ok (some (m, none)) else _) = _
    rw [if_neg hv]
    show (get_model_by_name_and_version st m.name v >>= _) = _
    rw [hlook (some cfg) hcfg, ok_bind]
  · intro hnone hcur
    unfold resolve_model_identifier
    rw [hparse]
    show resolveParsed st variant (some v) = _
    unfold resolveParsed
    rw [hb, ok_bind]
    show (if v = "" then Except.ok (some (m, none)) else _) = _
    rw [if_neg hv]
    show (get_model_by_name_and_version st m.name v >>= _) = _
    rw [hlook none hnone, if_pos hcur, ok_bind]

/-- Witness for the amended C6: Foo@2.0.0 resolves to the stored model named
foo with the stored 2.0.0 row, and Legacy-Model@3.0.0 resolves to the legacy
model with the view synthesized from its current fields. -/
theorem resolve_versioned_unique_match_witness :
    resolve_model_identifier { models := [modelFoo], activeModels := ["aaaa0003"] }
      ("Foo" ++ "@" ++ "2.0.0") = .ok (some (modelFoo, some cfg200)) ∧
    resolve_model_identifier { models := [modelLegacy], activeModels := ["aaaa0004"] }
      ("Legacy-Model" ++ "@" ++ "3.0.0") =
      .ok (some (modelLegacy, some (synthVersionView modelLegacy))) :=
  ⟨(resolve_versioned_unique_match
      { models := [modelFoo], activeModels := ["aaaa0003"] } modelFoo "Foo" "2.0.0"
      (by decide) (by decide) (by decide) (by decide) (by decide)
      (by decide)).1 cfg200 (by decide),
   (resolve_versioned_unique_match
      { models := [modelLegacy], activeModels := ["aaaa0004"] } modelLegacy
      "Legacy-Model" "3.0.0"
      (by decide) (by decide) (by decide) (by decide) (by decide)
      (by decide)).2.1 (by decide) (by decide)⟩

/-! ### C3 -/

/-- C3 counterexample: a source that contains the deny-listed pattern
"import os" but fails to parse is rejected by the syntax check, which runs
first, so the rejection carries the syntax message and not the security
one.  The oracle returns the SyntaxError message the Python parser produces
on this text. -/
theorem dangerous_but_unparseable_source_gets_syntax_error :
    findDangerousPattern "import os\ndef f(:" = some "import os" ∧
    create_tool (fun _ => some "invalid syntax") { tools := [] } "cccc0001" "mytool" "d"
      none true false (some "import os\ndef f(:") none "t0" =
      .error (.valueError (syntaxRejectionText "invalid syntax")) ∧
    syntaxRejectionText "invalid syntax" ≠ securityRejectionText "import os" := by
  decide

theorem security_message_head :
    ∀ p : String, (securityRejectionText p).data.head? = some 'F' := fun _ => rfl

theorem syntax_message_head :
    ∀ q : String, (syntaxRejectionText q).data.head? = some 'I' := fun _ => rfl

/-- C3 amended: when the name checks pass and the source is a non-empty
string that parses, a deny-listed pattern is rejected with the ValueError
carrying the security message (naming the first matching pattern) and the
tool is never persisted; a source that fails to parse is rejected with the
ValueError carrying the parser message; and the two rejection messages are
always distinct (both surface as the same host exception class ValueError,
distinguished by message). -/
theorem security_screen_rejects_without_persisting :
    (∀ (oracle : String → Option String) (st : ToolState)
        (newId name descr : String) (cat : Option String) (en ib : Bool)
        (params : Option (List ToolParameterRec)) (now fc p : String),
      name ≠ "" → reMatchNamePattern name = true →
      toolKeyMatches st name = [] →
      fc ≠ "" → ¬ (fc = "" ∨ pyStrip fc = "") →
      oracle fc = none →
      findDangerousPattern fc = some p →
      create_tool oracle st newId name descr cat en ib (some fc) params now =
        .error (.valueError (securityRejectionText p)) ∧
      create_tool_step oracle st newId name descr cat en ib (some fc) params now = st) ∧
    (∀ (oracle : String → Option String) (st : ToolState)
        (newId name descr : String) (cat : Option String) (en ib : Bool)
        (params : Option (List ToolParameterRec)) (now fc msg : String),
      name ≠ "" → reMatchNamePattern name = true →
      toolKeyMatches st name = [] →
      fc ≠ "" → ¬ (fc = "" ∨ pyStrip fc = "") →
      oracle fc = some msg →
      create_tool oracle st newId name descr cat en ib (some fc) params now =
        .error (.valueError (syntaxRejectionText msg))) ∧
    (∀ p q : String, securityRejectionText p ≠ syntaxRejectionText q) := by
  have hname_ok : ∀ (name : String), name ≠ "" → reMatchNamePattern name = true →
      ensure (name ≠ "" ∧ reMatchNamePattern name)
        (Err.valueError "Tool name must start with a letter and contain only lowercase letters, numbers, underscores, and hyphens.") = .ok () := by
    intro name h1 h2
    exact ensure_of ⟨h1, h2⟩
  refine ⟨?_, ?_, ?_⟩
  · intro oracle st newId name descr cat en ib params now fc p h1 h2 hdup hfc hne horacle hpat
    have hg : get_tool st name = .ok none := by
      unfold get_tool
      rw [hdup]
    have hval : validate_function_code oracle fc =
        .error (.valueError (securityRejectionText p)) := by
      unfold validate_function_code
      rw [ensure_of hne, ok_bind, horacle, hpat]
    have herr : create_tool oracle st newId name descr cat en ib (some fc) params now =
        .error (.valueError (securityRejectionText p)) := by
      have hvcf : validateCodeField oracle (some fc) =
          .error (.valueError (securityRejectionText p)) := by
        show (if fc ≠ "" then validate_function_code oracle fc else Except.ok ()) = _
        rw [if_pos hfc, hval]
      unfold create_tool
      rw [hname_ok name h1 h2, ok_bind, hg, ok_bind, ensure_of (by simp), ok_bind,
        hvcf, error_bind]
    refine ⟨herr, ?_⟩
    unfold create_tool_step
    rw [herr]
  · intro oracle st newId name descr cat en ib params now fc msg h1 h2 hdup hfc hne horacle
    have hg : get_tool st name = .ok none := by
      unfold get_tool
      rw [hdup]
    have hval : validate_function_code oracle fc =
        .error (.valueError (syntaxRejectionText msg)) := by
      unfold validate_function_code
      rw [ensure_of hne, ok_bind, horacle]
    have hvcf : validateCodeField oracle (some fc) =
        .error (.valueError (syntaxRejectionText msg)) := by
      show (if fc ≠ "" then validate_function_code oracle fc else Except.ok ()) = _
      rw [if_pos hfc, hval]
    unfold create_tool
    rw [hname_ok name h1 h2, ok_bind, hg, ok_bind, ensure_of (by simp), ok_bind,
      hvcf, error_bind]
  · intro p q h
    have h2 : (securityRejectionText p).data.head? = (syntaxRejectionText q).data.head? :=
      congrArg (fun s => s.data.head?) h
    rw [security_message_head p, syntax_message_head q] at h2
    simp at h2

/-- Witness for the amended C3: a parseable source containing "import os" is
rejected with the security message and the store is unchanged, and an
unparseable source is rejected with the parser message. -/
theorem security_screen_rejects_without_persisting_witness :
    (create_tool (fun _ => none) { tools := [] } "cccc0002" "ostool" "d" none true false
        (some "def f():\n    import os") none "t0" =
      .error (.valueError (securityRejectionText "import os")) ∧
     create_tool_step (fun _ => none) { tools := [] } "cccc0002" "ostool" "d" none true false
        (some "def f():\n    import os") none "t0" = { tools := [] }) ∧
    create_tool (fun _ => some "bad") { tools := [] } "cccc0003" "brokentool" "d" none true
        false (some "def f(:") none "t0" =
      .error (.valueError (syntaxRejectionText "bad")) :=
  ⟨security_screen_rejects_without_persisting.1 (fun _ => none) { tools := [] }
      "cccc0002" "ostool" "d" none true false none "t0"
      "def f():\n    import os" "import os"
      (by decide) (by decide) (by decide) (by decide) (by decide) rfl (by decide),
   security_screen_rejects_without_persisting.2.1 (fun _ => some "bad") { tools := [] }
      "cccc0003" "brokentool" "d" none true false none "t0" "def f(:" "bad"
      (by decide) (by decide) (by decide) (by decide) (by decide) rfl⟩

/-! ### C9 -/

/-- C9 counterexample: create_tool validates the name with the pattern
caret-[a-z][a-z0-9_-]*-dollar and no length rule, so the one-character name
a - which model-name validation rejects as too short - is accepted and
persisted. -/
theorem create_tool_accepts_single_char_name :
    ((create_tool (fun _ => none) { tools := [] } "bbbb0001" "a" "adds one" none true false
        none none "t0").map (fun st2 => st2.tools.map (fun t => t.name))) = .ok ["a"] ∧
    validate_model_name "a" =
      .error (.valueError "Model name must be at least 2 characters.") := by
  decide

/-- C9 amended: create_tool checks the tool name only against the pattern
(start with a lowercase letter, then lowercase letters, digits, underscore,
hyphen, with re.match tolerating one trailing newline): a name failing the
pattern is rejected with the name ValueError before anything is written,
and a fresh pattern-conforming name (with no source text) is accepted
whatever its length. -/
theorem tool_name_validated_by_pattern_only :
    (∀ (oracle : String → Option String) (st : ToolState)
        (newId name descr : String) (cat : Option String) (en ib : Bool)
        (fc : Option String) (params : Option (List ToolParameterRec)) (now : String),
      reMatchNamePattern name = false →
      create_tool oracle st newId name descr cat en ib fc params now =
        .error (.valueError "Tool name must start with a letter and contain only lowercase letters, numbers, underscores, and hyphens.")) ∧
    (∀ (oracle : String → Option String) (st : ToolState)
        (newId name descr : String) (cat : Option String) (en ib : Bool)
        (params : Option (List ToolParameterRec)) (now : String),
      name ≠ "" → reMatchNamePattern name = true →
      toolKeyMatches st name = [] →
      (st.tools.all (fun t => t.id != newId)) = true →
      ∃ st2, create_tool oracle st newId name descr cat en ib none params now = .ok st2 ∧
        name ∈ st2.tools.map (fun t => t.name)) := by
  constructor
  · intro oracle st newId name descr cat en ib fc params now hpat
    unfold create_tool
    rw [ensure_not_ok (by simp [hpat]), error_bind]
  · intro oracle st newId name descr cat en ib params now h1 h2 hdup hids
    have hg : get_tool st name = .ok none := by
      unfold get_tool
      rw [hdup]
    refine ⟨{ tools := st.tools ++
        [{ id := newId, name := name, description := descr, category := cat,
           enabled := en, is_builtin := ib, function_code := none,
           parameters := params, created_at := some now, updated_at := some now }] }, ?_, ?_⟩
    · unfold create_tool
      rw [ensure_of ⟨h1, h2⟩, ok_bind, hg, ok_bind, ensure_of (by simp), ok_bind]
      show (validateCodeField oracle none >>= _) = _
      rw [show validateCodeField oracle none = Except.ok () from rfl, ok_bind,
        ensure_of hids, ok_bind]
    · simp

/-- Witness for the amended C9: an uppercase-starting name is rejected and a
fresh 70-character lowercase name is accepted. -/
theorem tool_name_validated_by_pattern_only_witness :
    create_tool (fun _ => none) { tools := [] } "bbbb0002" "A1" "d" none true false
      none none "t0" =
      .error (.valueError "Tool name must start with a letter and contain only lowercase letters, numbers, underscores, and hyphens.") ∧
    (∃ st2, create_tool (fun _ => none) { tools := [] } "bbbb0003"
        "averyveryveryveryveryveryveryveryveryveryveryveryverylongtoolname1970" "d" none
        true false none none "t0" = .ok st2 ∧
      "averyveryveryveryveryveryveryveryveryveryveryveryverylongtoolname1970" ∈
        st2.tools.map (fun t => t.name)) :=
  ⟨tool_name_validated_by_pattern_only.1 (fun _ => none) { tools := [] } "bbbb0002" "A1"
      "d" none true false none none "t0" (by decide),
   tool_name_validated_by_pattern_only.2 (fun _ => none) { tools := [] } "bbbb0003"
      "averyveryveryveryveryveryveryveryveryveryveryveryverylongtoolname1970" "d" none
      true false none "t0" (by decide) (by decide) (by decide) (by decide)⟩

/-! ### C7 -/

/-- C7: the synthesized executor always returns a string (its type), and on
every path the string is the one the source specifies: a formatted error
text when exec raises, the selection error text when no function is found,
the formatted error text when the invocation raises, str(result) on a
non-None return, and the fixed success text on a None return - exceptions
are captured, never propagated. -/
theorem executor_returns_string_never_raises
    (t_name : String) (execOutcome : Except PyExc (List (String × PyLocal))) :
    (∀ e, execOutcome = .error e →
      execute_custom_tool t_name execOutcome = pyExcText e) ∧
    (∀ locals, execOutcome = .ok locals → findFunction t_name locals = none →
      execute_custom_tool t_name execOutcome = noFunctionText t_name) ∧
    (∀ locals e, execOutcome = .ok locals →
      findFunction t_name locals = some (.error e) →
      execute_custom_tool t_name execOutcome = pyExcText e) ∧
    (∀ locals s, execOutcome = .ok locals →
      findFunction t_name locals = some (.ok (some s)) →
      execute_custom_tool t_name execOutcome = s) ∧
    (∀ locals, execOutcome = .ok locals →
      findFunction t_name locals = some (.ok none) →
      execute_custom_tool t_name execOutcome = "Tool executed successfully.") := by
  refine ⟨?_, ?_, ?_, ?_, ?_⟩
  · intro e he
    subst he
    rfl
  · intro locals hl hf
    subst hl
    unfold execute_custom_tool
    show (match findFunction t_name locals with
          | none => noFunctionText t_name
          | some call =>
            match call with
            | Except.error e => pyExcText e
            | Except.ok none => "Tool executed successfully."
            | Except.ok (some s) => s) = _
    rw [hf]
  · intro locals e hl hf
    subst hl
    unfold execute_custom_tool
    show (match findFunction t_name locals with
          | none => noFunctionText t_name
          | some call =>
            match call with
            | Except.error e => pyExcText e
            | Except.ok none => "Tool executed successfully."
            | Except.ok (some s) => s) = _
    rw [hf]
  · intro locals s hl hf
    subst hl
    unfold execute_custom_tool
    show (match findFunction t_name locals with
          | none => noFunctionText t_name
          | some call =>
            match call with
            | Except.error e => pyExcText e
            | Except.ok none => "Tool executed successfully."
            | Except.ok (some s) => s) = _
    rw [hf]
  · intro locals hl hf
    subst hl
    unfold execute_custom_tool
    show (match findFunction t_name locals with
          | none => noFunctionText t_name
          | some call =>
            match call with
            | Except.error e => pyExcText e
            | Except.ok none => "Tool executed successfully."
            | Except.ok (some s) => s) = _
    rw [hf]

/-- Witness for C7: a tool whose function raises has the exception text
returned as the output string, and one that returns a value has its string
form returned. -/
theorem executor_returns_string_never_raises_witness :
    execute_custom_tool "mytool"
      (.ok [("mytool", PyLocal.callable (.error { msg := "boom", traceback := "tb" }))]) =
      pyExcText { msg := "boom", traceback := "tb" } ∧
    execute_custom_tool "mytool"
      (.ok [("mytool", PyLocal.callable (.ok (some "42")))]) = "42" :=
  ⟨(executor_returns_string_never_raises "mytool"
      (.ok [("mytool", PyLocal.callable (.error { msg := "boom", traceback := "tb" }))])).2.2.1
      [("mytool", PyLocal.callable (.error { msg := "boom", traceback := "tb" }))]
      { msg := "boom", traceback := "tb" } rfl (by decide),
   (executor_returns_string_never_raises "mytool"
      (.ok [("mytool", PyLocal.callable (.ok (some "42")))])).2.2.2.1
      [("mytool", PyLocal.callable (.ok (some "42")))] "42" rfl (by decide)⟩

/-! ### C8 -/

/-- C8: with an empty explicit parameter list the synthesizer infers the
parameters from the first function definition found in the parsed source -
each argument becomes a required, defaultless parameter named after it, an
int hint maps to the schema type integer and a missing hint to string - and
with a non-empty explicit list no inference happens and the list is used
unchanged; required parameters carry no default in the synthesized field
definitions. -/
theorem parameter_inference_follows_first_function
    (explicit : List ToolParameterRec) (parsed : Except String (List PyAstNode))
    (walk : List PyAstNode) (args : List PyArg) :
    (explicit ≠ [] → deriveParameters explicit parsed = explicit) ∧
    (explicit = [] → parsed = .ok walk → firstFunctionDef walk = some args →
      ∀ (i : Nat) (a : PyArg), args[i]? = some a →
        (deriveParameters explicit parsed)[i]? = some
          { name := a.arg, type := inferParamType a.hint,
            description := "Parameter: " ++ a.arg, required := true, default := none }) ∧
    inferParamType (.nameAnn "int") = "integer" ∧
    inferParamType .noAnn = "string" ∧
    (∀ p : ToolParameterRec, p.required = true →
      buildFieldDefinitions [p] =
        [(p.name, { ftype := type_mapping p.type, optional := false, default := none })]) := by
  refine ⟨?_, ?_, by decide, by decide, ?_⟩
  · intro hne
    unfold deriveParameters
    rw [if_neg (by simpa using hne)]
  · intro hemp hparse hfirst i a ha
    subst hemp
    subst hparse
    unfold deriveParameters
    rw [if_pos (by decide)]
    show (match firstFunctionDef walk with
          | some args => inferredParams args
          | none => [])[i]? = _
    rw [hfirst]
    show (inferredParams args)[i]? = _
    unfold inferredParams
    rw [List.getElem?_map, ha]
    rfl
  · intro p hp
    unfold buildFieldDefinitions
    rw [List.map_singleton, if_pos hp]

/-- Witness for C8: a source whose first function takes an int-annotated
argument and an unannotated one infers (integer, required, no default) and
(string, required, no default); an explicit parameter list is kept as is. -/
theorem parameter_inference_follows_first_function_witness :
    (deriveParameters []
        (.ok [PyAstNode.otherNode,
              PyAstNode.functionDef [{ arg := "n", hint := .nameAnn "int" },
                                     { arg := "s", hint := .noAnn }]]))[0]? =
      some { name := "n", type := "integer", description := "Parameter: n",
             required := true, default := none } ∧
    (deriveParameters []
        (.ok [PyAstNode.otherNode,
              PyAstNode.functionDef [{ arg := "n", hint := .nameAnn "int" },
                                     { arg := "s", hint := .noAnn }]]))[1]? =
      some { name := "s", type := "string", description := "Parameter: s",
             required := true, default := none } ∧
    deriveParameters [{ name := "q", type := "number", description := "",
                        required := false, default := some (JsonVal.n 7) }]
        (.error "ignored") =
      [{ name := "q", type := "number", description := "",
         required := false, default := some (JsonVal.n 7) }] :=
  ⟨(parameter_inference_follows_first_function [] _
      [PyAstNode.otherNode,
       PyAstNode.functionDef [{ arg := "n", hint := .nameAnn "int" },
                              { arg := "s", hint := .noAnn }]]
      [{ arg := "n", hint := .nameAnn "int" }, { arg := "s", hint := .noAnn }]).2.1
      rfl rfl (by decide) 0 { arg := "n", hint := .nameAnn "int" } (by decide),
   (parameter_inference_follows_first_function [] _
      [PyAstNode.otherNode,
       PyAstNode.functionDef [{ arg := "n", hint := .nameAnn "int" },
                              { arg := "s", hint := .noAnn }]]
      [{ arg := "n", hint := .nameAnn "int" }, { arg := "s", hint := .noAnn }]).2.1
      rfl rfl (by decide) 1 { arg := "s", hint := .noAnn } (by decide),
   (parameter_inference_follows_first_function
      [{ name := "q", type := "number", description := "",
         required := false, default := some (JsonVal.n 7) }]
      (.error "ignored") [] []).1 (by decide)⟩

end AIProxy
